import Mathlib

/-!
Verification development for the RobustMQ MQTT broker core: a shallow
embedding of the subscription delivery engine (shared-leader pump,
exclusive push pump, keep-alive sweeper, plaintext authentication, user
storage) translated from the Rust sources, together with theorems about
the embedded operations.

Conventions:
* machine integers become `Nat` (with explicit wrap-around only where
  overflow is reachable);
* fallible Rust functions return `Except`/`Option`;
* side effects (channel sends, offset commits, ack-table mutations)
  are reified as an explicit event list `Ev` emitted by each operation;
* async waits (ack channels) are oracles supplied as inputs: each
  delivery attempt receives the outcome its `select` would have seen.
-/

namespace RobustMQ

/-- MQTT quality-of-service levels (`protocol::mqtt::common::QoS`). -/
inductive QoS where
  | AtMostOnce
  | AtLeastOnce
  | ExactlyOnce
deriving DecidableEq, Repr

/-- Numeric value of a QoS level (0, 1, 2), used for comparisons. -/
def QoS.toNat : QoS → Nat
  | .AtMostOnce => 0
  | .AtLeastOnce => 1
  | .ExactlyOnce => 2

/-- Protocol version of a connection (`MQTTProtocol`). -/
inductive MQTTProtocol where
  | MQTT4
  | MQTT5
deriving DecidableEq, Repr

/-- Subscriber entry of the shared-leader tables
(`subscribe::subscriber::Subscriber`, fields consumed by `build_publish`). -/
structure Subscriber where
  client_id : String
  subscription_identifier : Option Nat
  qos : QoS
  nolocal : Bool
  preserve_retain : Bool
deriving DecidableEq, Repr

instance : Inhabited Subscriber :=
  ⟨⟨"", none, QoS.AtMostOnce, false, false⟩⟩

/-- Decoded message record (`metadata_struct::mqtt::message::MQTTMessage`). -/
structure MQTTMessage where
  client_id : String
  retain : Bool
  payload : String
  format_indicator : Option Nat
  expiry_interval : Option Nat
  response_topic : Option String
  correlation_data : Option String
  user_properties : List (String × String)
  content_type : Option String
  qos : QoS
deriving DecidableEq, Repr

/-- Outgoing PUBLISH packet (`protocol::mqtt::common::Publish`). -/
structure Publish where
  dup : Bool
  qos : QoS
  pkid : Nat
  retain : Bool
  topic : String
  payload : String
deriving DecidableEq, Repr

/-- PUBLISH properties (`protocol::mqtt::common::PublishProperties`). -/
structure PublishProperties where
  payload_format_indicator : Option Nat
  message_expiry_interval : Option Nat
  topic_alias : Option Nat
  response_topic : Option String
  correlation_data : Option String
  user_properties : List (String × String)
  subscription_identifiers : List Nat
  content_type : Option String
deriving DecidableEq, Repr

/-- The slice of the metadata cache consulted by `build_publish`:
`metadata_cache.get_cluster_info().max_qos()`. -/
structure CacheInfo where
  max_qos : QoS
deriving DecidableEq, Repr

/-- Modelled from the spec: `sub_common::min_qos` is not under `src/`;
the spec's QoS rule takes the numeric minimum of its two arguments. -/
def min_qos (a b : QoS) : QoS :=
  if a.toNat ≤ b.toNat then a else b

/-- `sub_share_leader::build_publish`: builds the PUBLISH packet and its
properties for one subscriber, or `none` on a nolocal self-delivery. -/
def build_publish (metadata_cache : CacheInfo) (subscribe : Subscriber)
    (topic_name : String) (msg : MQTTMessage) :
    Option (Publish × PublishProperties) :=
  let sub_id : List Nat :=
    match subscribe.subscription_identifier with
    | some id => [id]
    | none => []
  let cluster_qos := metadata_cache.max_qos
  let qos := min_qos cluster_qos subscribe.qos
  let retain := if subscribe.preserve_retain then msg.retain else false
  if subscribe.nolocal && (subscribe.client_id == msg.client_id) then
    none
  else
    let publish : Publish :=
      { dup := false
        qos := qos
        pkid := 0
        retain := retain
        topic := topic_name
        payload := msg.payload }
    let properties : PublishProperties :=
      { payload_format_indicator := msg.format_indicator
        message_expiry_interval := msg.expiry_interval
        topic_alias := none
        response_topic := msg.response_topic
        correlation_data := msg.correlation_data
        user_properties := msg.user_properties
        subscription_identifiers := sub_id
        content_type := msg.content_type }
    some (publish, properties)

/-- `sub_share_leader::calc_record_num`: records requested per read batch
for a shared-leader group with `sub_len` members. -/
def calc_record_num (sub_len : Nat) : Nat :=
  if sub_len = 0 then
    100
  else
    let num := sub_len * 5
    if num > 1000 then 1000 else num

/-- Ack packet kinds (`cache_manager::QosAckPackageType`). -/
inductive QosAckPackageType where
  | PubAck
  | PubRec
  | PubRel
  | PubComp
deriving DecidableEq, Repr

/-- Payload of the ack broadcast channel (`cache_manager::QosAckPackageData`). -/
structure QosAckPackageData where
  ack_type : QosAckPackageType
  pkid : Nat
deriving DecidableEq, Repr

/-- Error kinds reached by the embedded delivery paths
(`CommonError` / `MQTTBrokerError` cases used in `sub_share_leader.rs`). -/
inductive CommonError where
  | CommmonError (msg : String)
  | PacketLenthError (len : Nat)
  | SubPublishWaitPubRecTimeout (client_id : String)
deriving DecidableEq, Repr

/-- The connection fields consulted by the QoS 1 path
(`metadata_cache.get_connection`, field `max_packet_size`). -/
structure MQTTConnection where
  max_packet_size : Nat
deriving DecidableEq, Repr

/-- Reified side effects of one pump.  Channel sends, offset commits and
ack-table mutations become events so that ordering claims are statable. -/
inductive Ev where
  /-- `publish_message_qos0` wrote the QoS 0 PUBLISH to the egress queue. -/
  | qos0Send (client_id : String) (offset : Nat)
  /-- `cache_manager.add_ack_packet` registered an ack waiter for `pkid`. -/
  | addAck (client_id : String) (pkid : Nat)
  /-- `publish_message_to_client` wrote a QoS 1 PUBLISH to the egress queue. -/
  | qos1Send (client_id : String) (pkid : Nat)
  /-- the QoS 1 wait saw a PUBACK matching `pkid`. -/
  | pubackOk (client_id : String) (pkid : Nat)
  /-- `qos2_send_publish` wrote a QoS 2 PUBLISH to the egress queue. -/
  | qos2Send (client_id : String) (pkid : Nat)
  /-- the QoS 2 wait saw a PUBREC matching `pkid`. -/
  | pubrecOk (client_id : String) (pkid : Nat)
  /-- `qos2_send_pubrel` wrote a PUBREL to the egress queue. -/
  | pubrelSend (client_id : String) (pkid : Nat)
  /-- `cache_manager.remove_pkid_info` freed `pkid`. -/
  | removePkid (client_id : String) (pkid : Nat)
  /-- `cache_manager.remove_ack_packet` dropped the ack waiter of `pkid`. -/
  | removeAck (client_id : String) (pkid : Nat)
  /-- `loop_commit_offset` committed `offset` for the pump's group. -/
  | commit (offset : Nat)
  /-- the exclusive pump wrote a PUBLISH to the MQTT4 response queue. -/
  | respSend4 (connection_id : Nat) (offset : Nat)
  /-- the exclusive pump wrote a PUBLISH to the MQTT5 response queue. -/
  | respSend5 (connection_id : Nat) (offset : Nat)
deriving DecidableEq, Repr

/-- Oracle for one QoS 1 delivery attempt: what the cache, the connection
manager, the egress send and the single `wait_packet_ack` would answer. -/
structure Qos1Env where
  get_connect_id : Option Nat
  get_connection : Option MQTTConnection
  get_connect_protocol : Option MQTTProtocol
  send_result : Except CommonError Unit
  wait_ack : Option QosAckPackageData
deriving Repr

/-- `sub_share_leader::share_leader_publish_message_qos1`: send the QoS 1
PUBLISH and wait for its PUBACK.  Returns the Rust function's result
together with the egress/ack events it produced. -/
def share_leader_publish_message_qos1 (env : Qos1Env) (client_id : String)
    (publish : Publish) (pkid : Nat) :
    Except CommonError Unit × List Ev :=
  match env.get_connect_id with
  | none =>
      (Except.error (CommonError.CommmonError
        "failed to get connect id, no connection available."), [])
  | some _connect_id =>
      let len_err : Bool :=
        match env.get_connection with
        | some conn => decide (publish.payload.length > conn.max_packet_size)
        | none => false
      if len_err then
        (Except.error (CommonError.PacketLenthError publish.payload.length), [])
      else
        -- `contain_properties` only selects the packet shape, not the result
        match env.send_result with
        | Except.error e =>
            (Except.error (CommonError.CommmonError
              ("Failed to write QOS1 Publish message to response queue: "
                ++ reprStr e)), [])
        | Except.ok _ =>
            match env.wait_ack with
            | some data =>
                if data.ack_type = QosAckPackageType.PubAck ∧ data.pkid = pkid then
                  (Except.ok (), [Ev.qos1Send client_id pkid,
                                  Ev.pubackOk client_id pkid])
                else
                  (Except.error (CommonError.CommmonError
                    "QOS1 publishes a message and waits for the PubAck packet to fail to be received"),
                   [Ev.qos1Send client_id pkid])
            | none =>
                (Except.error (CommonError.CommmonError
                  "QOS1 publishes a message and waits for the PubAck packet to fail to be received"),
                 [Ev.qos1Send client_id pkid])

/-- Oracle for one QoS 2 delivery attempt: the `qos2_send_publish` result
and the streams of `wait_packet_ack` outcomes the two wait loops consume
(the stop channel is silent while the pump runs). -/
structure Qos2Env where
  send_result : Except CommonError Unit
  rec_waits : List (Option QosAckPackageData)
  comp_waits : List (Option QosAckPackageData)
deriving Repr

/-- The PUBREC wait loop of `share_leader_publish_message_qos2`: skip
non-matching acks; a matching PUBREC commits the offset and exits; a
timed-out wait (or an exhausted stream) fails the attempt. -/
def qos2_wait_rec (client_id : String) (pkid offset : Nat) :
    List (Option QosAckPackageData) → Except CommonError Unit × List Ev
  | [] =>
      (Except.error (CommonError.SubPublishWaitPubRecTimeout client_id), [])
  | none :: _ =>
      (Except.error (CommonError.SubPublishWaitPubRecTimeout client_id), [])
  | some data :: rest =>
      if data.ack_type = QosAckPackageType.PubRec ∧ data.pkid = pkid then
        (Except.ok (), [Ev.pubrecOk client_id pkid, Ev.commit offset])
      else
        qos2_wait_rec client_id pkid offset rest

/-- The PUBCOMP wait loop of `share_leader_publish_message_qos2`: a
matching PUBCOMP frees the pkid and its waiter; each timed-out wait
re-sends the PUBREL; non-matching acks are skipped. -/
def qos2_wait_comp (client_id : String) (pkid : Nat) :
    List (Option QosAckPackageData) → List Ev
  | [] => []
  | none :: rest =>
      Ev.pubrelSend client_id pkid :: qos2_wait_comp client_id pkid rest
  | some data :: rest =>
      if data.ack_type = QosAckPackageType.PubComp ∧ data.pkid = pkid then
        [Ev.removePkid client_id pkid, Ev.removeAck client_id pkid]
      else
        qos2_wait_comp client_id pkid rest

/-- `sub_share_leader::share_leader_publish_message_qos2`: send the QoS 2
PUBLISH, wait for PUBREC (committing the offset on the match), then send
PUBREL and wait for PUBCOMP. -/
def share_leader_publish_message_qos2 (env : Qos2Env) (client_id : String)
    (_publish : Publish) (pkid offset : Nat) :
    Except CommonError Unit × List Ev :=
  match env.send_result with
  | Except.error e => (Except.error e, [])
  | Except.ok _ =>
      match qos2_wait_rec client_id pkid offset env.rec_waits with
      | (Except.error e, evs) =>
          (Except.error e, Ev.qos2Send client_id pkid :: evs)
      | (Except.ok _, evs) =>
          (Except.ok (),
            Ev.qos2Send client_id pkid :: evs
              ++ [Ev.pubrelSend client_id pkid]
              ++ qos2_wait_comp client_id pkid env.comp_waits)

/-- Per-attempt oracles of a running pump, indexed by a global attempt
counter: the pkid `cache_manager.get_pkid` hands out and the QoS 1 / QoS 2
environments of the attempt. -/
structure AttemptEnvs where
  pkid : Nat → Nat
  q1 : Nat → Qos1Env
  q2 : Nat → Qos2Env

/-- Storage record (`storage_adapter::record::Record`); `data` is the
record's decoded form (`Modelled from the spec:`
`MQTTMessage::decode_record` is not under `src/`, so a record carries
either its decoded message or a decode failure). -/
structure Record where
  offset : Nat
  data : Option MQTTMessage
deriving DecidableEq, Repr

/-- How the inner retry loop of `read_message_process` left one record. -/
inductive RecordOutcome where
  /-- delivered to the member at index `idx` of the member list. -/
  | delivered (idx : Nat)
  /-- dropped after `loop_times` exceeded the member-list length. -/
  | dropped
  /-- `build_publish` returned `None` (nolocal self-delivery): consumed. -/
  | nolocalDrop
  /-- the (refreshed) member list is empty: with a fixed membership the
  code sleeps and refreshes forever, which the model marks as a stall. -/
  | stalled
deriving DecidableEq, Repr

/-- Result of the inner retry loop for one record. -/
structure LoopResult where
  outcome : RecordOutcome
  sub_list : List Subscriber
  cursor_point : Nat
  t : Nat
  events : List Ev
deriving Repr

/-- The inner retry loop of `sub_share_leader::read_message_process` for
one decoded record.  `R` is what `build_share_leader_sub_list` returns
(membership is held fixed while the loop runs); `cursor_point` is the
round-robin cursor, `loop_times` the failed-attempt counter, `t` the
global attempt counter indexing the oracles. -/
def recordLoop (R : List Subscriber) (cache : CacheInfo) (topic_name : String)
    (envs : AttemptEnvs) (msg : MQTTMessage) (offset : Nat)
    (sub_list : List Subscriber) (cursor_point loop_times t : Nat) :
    LoopResult :=
  -- `current_point`: reuse the cursor, or refresh the list and restart at 0
  let sl1 := if cursor_point < sub_list.length then sub_list else R
  let current_point := if cursor_point < sub_list.length then cursor_point else 0
  if sl1.length = 0 then
    -- the refreshed list is empty: sleep, refresh, retry forever
    ⟨RecordOutcome.stalled, sl1, cursor_point, t, []⟩
  else if h : loop_times > sl1.length then
    ⟨RecordOutcome.dropped, sl1, cursor_point, t, []⟩
  else
    let subscribe := sl1.getD current_point default
    let cursor' := current_point + 1
    match build_publish cache subscribe topic_name msg with
    | none => ⟨RecordOutcome.nolocalDrop, sl1, cursor', t, []⟩
    | some (publish, _properties) =>
        match publish.qos with
        | QoS.AtMostOnce =>
            ⟨RecordOutcome.delivered current_point, sl1, cursor', t,
              [Ev.qos0Send subscribe.client_id offset, Ev.commit offset]⟩
        | QoS.AtLeastOnce =>
            let pkid := envs.pkid t
            let env := envs.q1 t
            match share_leader_publish_message_qos1 env subscribe.client_id
                { publish with pkid := pkid } pkid with
            | (Except.ok _, sendEvs) =>
                ⟨RecordOutcome.delivered current_point, sl1, cursor', t + 1,
                  Ev.addAck subscribe.client_id pkid :: sendEvs
                    ++ [Ev.commit offset,
                        Ev.removePkid subscribe.client_id pkid,
                        Ev.removeAck subscribe.client_id pkid]⟩
            | (Except.error _, sendEvs) =>
                let res := recordLoop R cache topic_name envs msg offset
                  sl1 cursor' (loop_times + 1) (t + 1)
                ⟨res.outcome, res.sub_list, res.cursor_point, res.t,
                  Ev.addAck subscribe.client_id pkid :: sendEvs ++ res.events⟩
        | QoS.ExactlyOnce =>
            let pkid := envs.pkid t
            let env := envs.q2 t
            match share_leader_publish_message_qos2 env subscribe.client_id
                { publish with pkid := pkid } pkid offset with
            | (Except.ok _, sendEvs) =>
                ⟨RecordOutcome.delivered current_point, sl1, cursor', t + 1,
                  Ev.addAck subscribe.client_id pkid :: sendEvs⟩
            | (Except.error _, sendEvs) =>
                let res := recordLoop R cache topic_name envs msg offset
                  sl1 cursor' (loop_times + 1) (t + 1)
                ⟨res.outcome, res.sub_list, res.cursor_point, res.t,
                  Ev.addAck subscribe.client_id pkid :: sendEvs ++ res.events⟩
termination_by (max sub_list.length R.length + 2) - loop_times
decreasing_by
  all_goals
    simp only [sl1] at h ⊢
    by_cases hc : cursor_point < sub_list.length
    · simp only [dif_pos hc] at h ⊢
      omega
    · simp only [dif_neg hc] at h ⊢
      omega

/-- Why a pump run halted before exhausting the batch. -/
inductive HaltKind where
  | decodeFail
  | stalled
deriving DecidableEq, Repr

/-- Result of processing one read batch in the shared-leader pump. -/
structure RunResult where
  sub_list : List Subscriber
  cursor_point : Nat
  t : Nat
  outcomes : List RecordOutcome
  events : List Ev
  halted : Option HaltKind
deriving Repr

/-- The record-processing body of `sub_share_leader::read_message_process`:
the records the storage read returned are handled in order.  A record
that fails to decode has its offset committed and aborts the batch; a
stalled record (empty membership) aborts it as well. -/
def read_message_process (R : List Subscriber) (cache : CacheInfo)
    (topic_name : String) (envs : AttemptEnvs) :
    List Record → List Subscriber → Nat → Nat → RunResult
  | [], sub_list, cursor_point, t =>
      ⟨sub_list, cursor_point, t, [], [], none⟩
  | record :: rest, sub_list, cursor_point, t =>
      match record.data with
      | none =>
          -- decode failure: log, commit this offset, return to the caller
          ⟨sub_list, cursor_point, t, [], [Ev.commit record.offset],
            some HaltKind.decodeFail⟩
      | some msg =>
          let res := recordLoop R cache topic_name envs msg record.offset
            sub_list cursor_point 0 t
          match res.outcome with
          | RecordOutcome.stalled =>
              ⟨res.sub_list, res.cursor_point, res.t, [res.outcome],
                res.events, some HaltKind.stalled⟩
          | o =>
              let rr := read_message_process R cache topic_name envs rest
                res.sub_list res.cursor_point res.t
              ⟨rr.sub_list, rr.cursor_point, rr.t, o :: rr.outcomes,
                res.events ++ rr.events, rr.halted⟩

/-! ### Exclusive push pump (`subscribe/push.rs`) -/

/-- Subscriber entry of the exclusive tables (`subscribe::manager`'s
subscriber, fields consumed by `topic_sub_push_thread`). -/
structure PushSubscriber where
  client_id : String
  packet_identifier : Nat
  protocol : MQTTProtocol
  subscription_identifier : Option Nat
  qos : QoS
  is_share_sub : Bool
deriving DecidableEq, Repr

/-- Session entry consulted by the exclusive pump
(`metadata_cache.session_info`, field `connection_id`). -/
structure Session where
  connection_id : Option Nat
deriving DecidableEq, Repr

/-- Modelled from the spec: `handler::subscribe::max_qos` is not under
`src/`; the spec's delivery-QoS rule takes the numeric minimum of the
message QoS and the subscription QoS. -/
def max_qos (a b : QoS) : QoS :=
  if a.toNat ≤ b.toNat then a else b

/-- One iteration of the per-topic body of
`push::topic_sub_push_thread` for a non-empty read result: the batch's
last offset is committed first, then every (subscriber, record) pair is
pushed onto the response queue of the subscriber's protocol.  Decode
failures and subscribers without a live connection are skipped. -/
def topic_sub_push_iteration (session_info : String → Option Session)
    (sub_list : List PushSubscriber) (result : List Record) : List Ev :=
  if result.length = 0 then
    []
  else
    let commitEvs : List Ev :=
      match result.getLast? with
      | some last_res => [Ev.commit last_res.offset]
      | none => []
    let pushEvs : List Ev :=
      sub_list.flatMap (fun subscribe =>
        match session_info subscribe.client_id with
        | none => []
        | some sess =>
            match sess.connection_id with
            | none => []
            | some connect_id =>
                result.flatMap (fun record =>
                  match record.data with
                  | none => []
                  | some _msg =>
                      if subscribe.protocol = MQTTProtocol.MQTT4 then
                        [Ev.respSend4 connect_id record.offset]
                      else if subscribe.protocol = MQTTProtocol.MQTT5 then
                        [Ev.respSend5 connect_id record.offset]
                      else []))
    commitEvs ++ pushEvs

/-! ### Keep-alive sweeper (`cluster/keep_alive.rs`) -/

/-- DISCONNECT reason codes used by the sweeper. -/
inductive DisconnectReasonCode where
  | NormalDisconnection
  | AdministrativeAction
deriving DecidableEq, Repr

/-- DISCONNECT packet (`protocol::mqtt::Disconnect`). -/
structure Disconnect where
  reason_code : DisconnectReasonCode
deriving DecidableEq, Repr

/-- DISCONNECT properties (`protocol::mqtt::DisconnectProperties`). -/
structure DisconnectProperties where
  session_expiry_interval : Option Nat
  reason_string : Option String
  user_properties : List (String × String)
  server_reference : Option String
deriving DecidableEq, Repr

/-- The packets the sweeper enqueues. -/
inductive MQTTPacket where
  | disconnect (d : Disconnect) (props : Option DisconnectProperties)
deriving DecidableEq, Repr

/-- Entry of a request queue (`server::tcp::packet::RequestPackage`). -/
structure RequestPackage where
  connection_id : Nat
  packet : MQTTPacket
deriving DecidableEq, Repr

/-- Heartbeat table entry (connection keep-alive seconds, last heartbeat
instant, protocol version). -/
structure ConnectionLiveTime where
  keep_live : Nat
  heartbeat : Nat
  protobol : MQTTProtocol
deriving DecidableEq, Repr

/-- Width of the `u64` arithmetic in the sweeper. -/
def u64Mod : Nat := 2 ^ 64

/-- Per-connection body of `KeepAlive::start_heartbeat_check`:
if `now - last heartbeat` (u64 subtraction) exceeds twice the keep-alive
interval, enqueue a DISCONNECT (reason `AdministrativeAction`; with the
`heartbeat_close=true` user property only on the MQTT5 queue).  Returns
the packages enqueued on the MQTT4 and MQTT5 request queues. -/
def heartbeat_check_connection (now : Nat) (connect_id : Nat)
    (time : ConnectionLiveTime) : List RequestPackage × List RequestPackage :=
  let max_timeout := time.keep_live * 2
  let elapsed := (u64Mod + now - time.heartbeat) % u64Mod
  if elapsed > max_timeout then
    let disconnect : Disconnect := ⟨DisconnectReasonCode.AdministrativeAction⟩
    let properties : DisconnectProperties :=
      { session_expiry_interval := none
        reason_string := some "The connection was closed by the server because the heartbeat timeout was not reported."
        user_properties := [("heartbeat_close", "true")]
        server_reference := none }
    let q4 :=
      if time.protobol = MQTTProtocol.MQTT4 then
        [{ connection_id := connect_id
           packet := MQTTPacket.disconnect disconnect none }]
      else []
    let q5 :=
      if time.protobol = MQTTProtocol.MQTT5 then
        [{ connection_id := connect_id
           packet := MQTTPacket.disconnect disconnect (some properties) }]
      else []
    (q4, q5)
  else
    ([], [])

/-- One shard scan of `start_heartbeat_check`: every connection of the
shard's heartbeat table is checked in order and the enqueued packages
are collected per request queue. -/
def start_heartbeat_check_shard (now : Nat)
    (shard : List (Nat × ConnectionLiveTime)) :
    List RequestPackage × List RequestPackage :=
  shard.foldr
    (fun entry acc =>
      let r := heartbeat_check_connection now entry.1 entry.2
      (r.1 ++ acc.1, r.2 ++ acc.2))
    ([], [])

/-! ### User storage (`placement-center/src/storage/mqtt/user.rs`) -/

/-- Persisted user record (`metadata_struct::mqtt::user::MQTTUser`). -/
structure MQTTUser where
  username : String
  password : String
  is_superuser : Bool
deriving DecidableEq, Repr

/-- Modelled from the spec: the placement center's key-value engine
(`storage::engine`, RocksDB-backed) is not under `src/`; the spec
describes it as a key → JSON-record store, embedded as a map from string
keys to user records. -/
def KVStore : Type := String → Option MQTTUser

/-- Modelled from the spec: `storage::keys::storage_key_mqtt_user` is not
under `src/`; the spec gives keys of the form
`/cluster/<name>/mqtt/user/<username>`. -/
def storage_key_mqtt_user (cluster_name user_name : String) : String :=
  "/cluster/" ++ cluster_name ++ "/mqtt/user/" ++ user_name

/-- Modelled from the spec: `engine_save_by_cluster` stores the record
under the key. -/
def engine_save_by_cluster (kv : KVStore) (key : String) (user : MQTTUser) :
    KVStore :=
  fun k => if k = key then some user else kv k

/-- Modelled from the spec: `engine_get_by_cluster` looks the key up. -/
def engine_get_by_cluster (kv : KVStore) (key : String) : Option MQTTUser :=
  kv key

/-- Modelled from the spec: `engine_delete_by_cluster` removes the key. -/
def engine_delete_by_cluster (kv : KVStore) (key : String) : KVStore :=
  fun k => if k = key then none else kv k

/-- `MQTTUserStorage::save`. -/
def MQTTUserStorage.save (kv : KVStore) (cluster_name user_name : String)
    (user : MQTTUser) : KVStore :=
  engine_save_by_cluster kv (storage_key_mqtt_user cluster_name user_name) user

/-- `MQTTUserStorage::get`. -/
def MQTTUserStorage.get (kv : KVStore) (cluster_name username : String) :
    Option MQTTUser :=
  engine_get_by_cluster kv (storage_key_mqtt_user cluster_name username)

/-- `MQTTUserStorage::delete`. -/
def MQTTUserStorage.delete (kv : KVStore) (cluster_name user_name : String) :
    KVStore :=
  engine_delete_by_cluster kv (storage_key_mqtt_user cluster_name user_name)

/-! ### Plaintext authentication (`security/authentication/plaintext.rs`) -/

/-- User record of the broker cache (`metadata::user::User`, fields
consumed by `Plaintext::apply`). -/
structure User where
  username : String
  password : String
deriving DecidableEq, Repr

/-- CONNECT credentials (`protocol::mqtt::Login`). -/
structure Login where
  username : String
  password : String
deriving DecidableEq, Repr

/-- Authentication error kind. -/
inductive RobustMQError where
  | Backend (msg : String)
deriving DecidableEq, Repr

/-- `Plaintext::apply`: look the login's username up in the user table;
a present user authenticates iff the passwords match, an absent user
yields `Ok false`. -/
def Plaintext.apply (user_info : String → Option User) (login : Login) :
    Except RobustMQError Bool :=
  match user_info login.username with
  | some user => Except.ok (user.password == login.password)
  | none => Except.ok false

/-! ### Ordering predicates over event traces -/

/-- Is this event an offset commit? -/
def Ev.isCommit : Ev → Bool
  | Ev.commit _ => true
  | _ => false

/-- Is this event a completed delivery (QoS 0 egress write, matched
PUBACK, matched PUBREC, or an exclusive-pump egress write)? -/
def Ev.isDelivery : Ev → Bool
  | Ev.qos0Send _ _ => true
  | Ev.pubackOk _ _ => true
  | Ev.pubrecOk _ _ => true
  | Ev.respSend4 _ _ => true
  | Ev.respSend5 _ _ => true
  | _ => false

/-- Every commit in `prev :: evs` is immediately preceded by a delivery
event (scanning `evs` with `prev` as the predecessor of its head). -/
def commitsAfterDeliveryAux : Ev → List Ev → Bool
  | _, [] => true
  | prev, e :: rest =>
      (if e.isCommit then prev.isDelivery else true)
        && commitsAfterDeliveryAux e rest

/-- A trace commits only right after deliveries: it does not start with a
commit, and every commit is immediately preceded by a delivery event. -/
def commitsAfterDelivery : List Ev → Bool
  | [] => true
  | e :: rest => !e.isCommit && commitsAfterDeliveryAux e rest

theorem commitsAfterDeliveryAux_of_ok (p : Ev) (l : List Ev)
    (h : commitsAfterDelivery l = true) : commitsAfterDeliveryAux p l = true := by
  cases l with
  | nil => rfl
  | cons e rest =>
      simp only [commitsAfterDelivery, Bool.and_eq_true, Bool.not_eq_true'] at h
      simp [commitsAfterDeliveryAux, h.1, h.2]

theorem commitsAfterDeliveryAux_append (p : Ev) (l1 l2 : List Ev)
    (h1 : commitsAfterDeliveryAux p l1 = true)
    (h2 : commitsAfterDelivery l2 = true) :
    commitsAfterDeliveryAux p (l1 ++ l2) = true := by
  induction l1 generalizing p with
  | nil => simpa using commitsAfterDeliveryAux_of_ok p l2 h2
  | cons e rest ih =>
      simp only [commitsAfterDeliveryAux, Bool.and_eq_true] at h1
      simp only [List.cons_append, commitsAfterDeliveryAux, Bool.and_eq_true]
      exact ⟨h1.1, ih e h1.2⟩

theorem commitsAfterDelivery_append (l1 l2 : List Ev)
    (h1 : commitsAfterDelivery l1 = true)
    (h2 : commitsAfterDelivery l2 = true) :
    commitsAfterDelivery (l1 ++ l2) = true := by
  cases l1 with
  | nil => simpa using h2
  | cons e rest =>
      simp only [commitsAfterDelivery, Bool.and_eq_true] at h1
      simp only [List.cons_append, commitsAfterDelivery, Bool.and_eq_true]
      exact ⟨h1.1, commitsAfterDeliveryAux_append e rest l2 h1.2 h2⟩

/-- Is this event an ack-waiter registration? -/
def Ev.isAddAck : Ev → Bool
  | Ev.addAck _ _ => true
  | _ => false

/-- Is this event an ack-waiter removal? -/
def Ev.isRemoveAck : Ev → Bool
  | Ev.removeAck _ _ => true
  | _ => false

/-- Is this event a pkid release? -/
def Ev.isRemovePkid : Ev → Bool
  | Ev.removePkid _ _ => true
  | _ => false

/-! ### Event shapes of the QoS delivery paths -/

theorem qos1_ok_events (env : Qos1Env) (c : String) (pub : Publish) (pk : Nat)
    (u : Unit) (evs : List Ev)
    (h : share_leader_publish_message_qos1 env c pub pk = (Except.ok u, evs)) :
    evs = [Ev.qos1Send c pk, Ev.pubackOk c pk] := by
  unfold share_leader_publish_message_qos1 at h
  rcases env with ⟨cid, conn, prot, sr, wa⟩
  dsimp at h
  cases cid with
  | none => simp_all
  | some cid =>
      dsimp at h
      split at h
      · simp_all
      · cases sr with
        | error e => simp_all
        | ok _ =>
            dsimp at h
            cases wa with
            | none => simp_all
            | some data =>
                dsimp at h
                split at h <;> simp_all

theorem qos1_error_events (env : Qos1Env) (c : String) (pub : Publish)
    (pk : Nat) (e : CommonError) (evs : List Ev)
    (h : share_leader_publish_message_qos1 env c pub pk = (Except.error e, evs)) :
    evs = [] ∨ evs = [Ev.qos1Send c pk] := by
  unfold share_leader_publish_message_qos1 at h
  rcases env with ⟨cid, conn, prot, sr, wa⟩
  dsimp at h
  cases cid with
  | none => simp_all
  | some cid =>
      dsimp at h
      split at h
      · simp_all
      · cases sr with
        | error e2 => simp_all
        | ok _ =>
            dsimp at h
            cases wa with
            | none => simp_all
            | some data =>
                dsimp at h
                split at h <;> simp_all

theorem qos1_fail_of_wait_none (env : Qos1Env) (c : String) (pub : Publish)
    (pk : Nat) (hw : env.wait_ack = none) :
    ∃ e, (share_leader_publish_message_qos1 env c pub pk).1 = Except.error e := by
  unfold share_leader_publish_message_qos1
  rcases env with ⟨cid, conn, prot, sr, wa⟩
  simp only at hw
  subst hw
  cases cid with
  | none => simp
  | some cid =>
      dsimp
      split
      · simp
      · cases sr with
        | error e2 => simp
        | ok _ => simp

theorem qos2_wait_rec_ok_events (c : String) (pk off : Nat)
    (waits : List (Option QosAckPackageData)) (u : Unit) (evs : List Ev)
    (h : qos2_wait_rec c pk off waits = (Except.ok u, evs)) :
    evs = [Ev.pubrecOk c pk, Ev.commit off] := by
  induction waits with
  | nil => simp [qos2_wait_rec] at h
  | cons w rest ih =>
      cases w with
      | none => simp [qos2_wait_rec] at h
      | some data =>
          rw [qos2_wait_rec] at h
          split at h
          · simp_all
          · exact ih h

theorem qos2_wait_rec_error_events (c : String) (pk off : Nat)
    (waits : List (Option QosAckPackageData)) (e : CommonError) (evs : List Ev)
    (h : qos2_wait_rec c pk off waits = (Except.error e, evs)) :
    evs = [] := by
  induction waits with
  | nil => simp [qos2_wait_rec] at h; exact h.2
  | cons w rest ih =>
      cases w with
      | none => simp [qos2_wait_rec] at h; exact h.2
      | some data =>
          rw [qos2_wait_rec] at h
          split at h
          · simp_all
          · exact ih h

theorem qos2_wait_comp_no_commit_aux (c : String) (pk : Nat)
    (waits : List (Option QosAckPackageData)) (p : Ev) :
    commitsAfterDeliveryAux p (qos2_wait_comp c pk waits) = true := by
  induction waits generalizing p with
  | nil => rfl
  | cons w rest ih =>
      cases w with
      | none =>
          simp only [qos2_wait_comp, commitsAfterDeliveryAux, Ev.isCommit,
            Bool.and_eq_true]
          exact ⟨rfl, ih _⟩
      | some data =>
          rw [qos2_wait_comp]
          split
          · simp [commitsAfterDeliveryAux, Ev.isCommit]
          · exact ih p

theorem qos2_ok_events (env : Qos2Env) (c : String) (pub : Publish)
    (pk off : Nat) (u : Unit) (evs : List Ev)
    (h : share_leader_publish_message_qos2 env c pub pk off = (Except.ok u, evs)) :
    evs = Ev.qos2Send c pk :: [Ev.pubrecOk c pk, Ev.commit off]
      ++ [Ev.pubrelSend c pk] ++ qos2_wait_comp c pk env.comp_waits := by
  unfold share_leader_publish_message_qos2 at h
  rcases env with ⟨sr, rws, cws⟩
  cases sr with
  | error e => simp_all
  | ok _ =>
      dsimp at h
      rcases hrec : qos2_wait_rec c pk off rws with ⟨res, recEvs⟩
      rw [hrec] at h
      cases res with
      | error e => simp at h
      | ok u2 =>
          dsimp at h
          have := qos2_wait_rec_ok_events c pk off rws u2 recEvs hrec
          subst this
          simp_all

theorem qos2_error_events (env : Qos2Env) (c : String) (pub : Publish)
    (pk off : Nat) (e : CommonError) (evs : List Ev)
    (h : share_leader_publish_message_qos2 env c pub pk off = (Except.error e, evs)) :
    evs = [] ∨ evs = [Ev.qos2Send c pk] := by
  unfold share_leader_publish_message_qos2 at h
  rcases env with ⟨sr, rws, cws⟩
  cases sr with
  | error e2 => simp_all
  | ok _ =>
      dsimp at h
      rcases hrec : qos2_wait_rec c pk off rws with ⟨res, recEvs⟩
      rw [hrec] at h
      cases res with
      | ok u2 => simp at h
      | error e2 =>
          dsimp at h
          have := qos2_wait_rec_error_events c pk off rws e2 recEvs hrec
          subst this
          simp_all

theorem qos2_fail_of_rec_empty (env : Qos2Env) (c : String) (pub : Publish)
    (pk off : Nat) (hw : env.rec_waits = []) :
    ∃ e, (share_leader_publish_message_qos2 env c pub pk off).1 = Except.error e := by
  unfold share_leader_publish_message_qos2
  rcases env with ⟨sr, rws, cws⟩
  simp only at hw
  subst hw
  cases sr with
  | error e2 => simp
  | ok _ => simp [qos2_wait_rec]

/-! ### The shared-leader pump commits only right after deliveries -/

theorem commitsAfterDelivery_recordLoop (R : List Subscriber)
    (cache : CacheInfo) (tn : String) (envs : AttemptEnvs) (msg : MQTTMessage)
    (off : Nat) (sl : List Subscriber) (cp lt t : Nat) :
    commitsAfterDelivery
      (recordLoop R cache tn envs msg off sl cp lt t).events = true := by
  induction sl, cp, lt, t using recordLoop.induct R cache tn envs msg off with
  | case1 sub_list cursor_point loop_times t sl1 hlen =>
      have hlen' : (if cursor_point < sub_list.length then sub_list else R).length = 0 := hlen
      rw [recordLoop]
      simp only [hlen']
      rfl
  | case2 sub_list cursor_point loop_times t sl1 hlen hgt =>
      have hlen' : ¬ (if cursor_point < sub_list.length then sub_list else R).length = 0 := hlen
      have hgt' : loop_times > (if cursor_point < sub_list.length then sub_list else R).length := hgt
      rw [recordLoop]
      simp only [hlen', hgt', if_false, dif_pos, if_true]
      rfl
  | case3 sub_list cursor_point loop_times t sl1 current_point hlen hgt subscribe hbp =>
      have hlen' : ¬ (if cursor_point < sub_list.length then sub_list else R).length = 0 := hlen
      have hgt' : ¬ loop_times > (if cursor_point < sub_list.length then sub_list else R).length := hgt
      have hbp' : build_publish cache
          ((if cursor_point < sub_list.length then sub_list else R).getD
            (if cursor_point < sub_list.length then cursor_point else 0) default)
          tn msg = none := hbp
      rw [recordLoop]
      simp only [hlen', hgt', hbp', if_false, dif_neg]
      rfl
  | case4 sub_list cursor_point loop_times t sl1 current_point hlen hgt subscribe publish props hbp hqos =>
      have hlen' : ¬ (if cursor_point < sub_list.length then sub_list else R).length = 0 := hlen
      have hgt' : ¬ loop_times > (if cursor_point < sub_list.length then sub_list else R).length := hgt
      have hbp' : build_publish cache
          ((if cursor_point < sub_list.length then sub_list else R).getD
            (if cursor_point < sub_list.length then cursor_point else 0) default)
          tn msg = some (publish, props) := hbp
      rw [recordLoop]
      simp only [hlen', hgt', hbp', hqos, if_false, dif_neg]
      simp [commitsAfterDelivery, commitsAfterDeliveryAux, Ev.isCommit,
        Ev.isDelivery]
  | case5 sub_list cursor_point loop_times t sl1 current_point hlen hgt subscribe publish props hbp hqos pkidv envv u sendEvs hq1 =>
      have hlen' : ¬ (if cursor_point < sub_list.length then sub_list else R).length = 0 := hlen
      have hgt' : ¬ loop_times > (if cursor_point < sub_list.length then sub_list else R).length := hgt
      have hbp' : build_publish cache
          ((if cursor_point < sub_list.length then sub_list else R).getD
            (if cursor_point < sub_list.length then cursor_point else 0) default)
          tn msg = some (publish, props) := hbp
      rw [hqos] at hq1
      rw [recordLoop]
      simp only [hlen', hgt', hbp', hqos, if_false, dif_neg]
      split
      · rfl
      · split
        · next u2 sendEvs2 heq =>
            have hse := qos1_ok_events _ _ _ _ _ _ heq
            subst hse
            simp [commitsAfterDelivery, commitsAfterDeliveryAux, Ev.isCommit,
              Ev.isDelivery]
        · next e2 sendEvs2 heq =>
            exact absurd (hq1.symm.trans heq) (by simp)
  | case6 sub_list cursor_point loop_times t sl1 current_point hlen hgt subscribe cursor' publish props hbp hqos pkidv envv e sendEvs hq1 ih =>
      have hlen' : ¬ (if cursor_point < sub_list.length then sub_list else R).length = 0 := hlen
      have hgt' : ¬ loop_times > (if cursor_point < sub_list.length then sub_list else R).length := hgt
      have hbp' : build_publish cache
          ((if cursor_point < sub_list.length then sub_list else R).getD
            (if cursor_point < sub_list.length then cursor_point else 0) default)
          tn msg = some (publish, props) := hbp
      rw [hqos] at hq1
      rw [recordLoop]
      simp only [hlen', hgt', hbp', hqos, if_false, dif_neg]
      split
      · rfl
      · split
        · next u2 sendEvs2 heq =>
            exact absurd (hq1.symm.trans heq) (by simp)
        · next e2 sendEvs2 heq =>
            have hse := qos1_error_events _ _ _ _ _ _ heq
            rcases hse with hse | hse <;> subst hse
            · simp only [List.nil_append, commitsAfterDelivery, Ev.isCommit,
                Bool.not_false, Bool.true_and]
              exact commitsAfterDeliveryAux_of_ok _ _ ih
            · simp only [commitsAfterDelivery, List.cons_append,
                List.singleton_append, Ev.isCommit, Bool.not_false, Bool.true_and]
              refine commitsAfterDeliveryAux_append _ [Ev.qos1Send _ _] _ ?_ ih
              rfl
  | case7 sub_list cursor_point loop_times t sl1 current_point hlen hgt subscribe publish props hbp hqos pkidv envv u sendEvs hq2 =>
      have hlen' : ¬ (if cursor_point < sub_list.length then sub_list else R).length = 0 := hlen
      have hgt' : ¬ loop_times > (if cursor_point < sub_list.length then sub_list else R).length := hgt
      have hbp' : build_publish cache
          ((if cursor_point < sub_list.length then sub_list else R).getD
            (if cursor_point < sub_list.length then cursor_point else 0) default)
          tn msg = some (publish, props) := hbp
      rw [hqos] at hq2
      rw [recordLoop]
      simp only [hlen', hgt', hbp', hqos, if_false, dif_neg]
      split
      · rfl
      · split
        · next u2 sendEvs2 heq =>
            have hse := qos2_ok_events _ _ _ _ _ _ _ heq
            subst hse
            simp [commitsAfterDelivery, commitsAfterDeliveryAux, Ev.isCommit,
              Ev.isDelivery, qos2_wait_comp_no_commit_aux]
        · next e2 sendEvs2 heq =>
            exact absurd (hq2.symm.trans heq) (by simp)
  | case8 sub_list cursor_point loop_times t sl1 current_point hlen hgt subscribe cursor' publish props hbp hqos pkidv envv e sendEvs hq2 ih =>
      have hlen' : ¬ (if cursor_point < sub_list.length then sub_list else R).length = 0 := hlen
      have hgt' : ¬ loop_times > (if cursor_point < sub_list.length then sub_list else R).length := hgt
      have hbp' : build_publish cache
          ((if cursor_point < sub_list.length then sub_list else R).getD
            (if cursor_point < sub_list.length then cursor_point else 0) default)
          tn msg = some (publish, props) := hbp
      rw [hqos] at hq2
      rw [recordLoop]
      simp only [hlen', hgt', hbp', hqos, if_false, dif_neg]
      split
      · rfl
      · split
        · next u2 sendEvs2 heq =>
            exact absurd (hq2.symm.trans heq) (by simp)
        · next e2 sendEvs2 heq =>
            have hse := qos2_error_events _ _ _ _ _ _ _ heq
            rcases hse with hse | hse <;> subst hse
            · simp only [List.nil_append, commitsAfterDelivery, Ev.isCommit,
                Bool.not_false, Bool.true_and]
              exact commitsAfterDeliveryAux_of_ok _ _ ih
            · simp only [commitsAfterDelivery, List.cons_append,
                List.singleton_append, Ev.isCommit, Bool.not_false, Bool.true_and]
              refine commitsAfterDeliveryAux_append _ [Ev.qos2Send _ _] _ ?_ ih
              rfl

/-- Batches whose records all decode commit offsets only right after a
delivery event. -/
theorem commitsAfterDelivery_read_message_process (R : List Subscriber)
    (cache : CacheInfo) (tn : String) (envs : AttemptEnvs)
    (records : List Record) (sl : List Subscriber) (cp t : Nat)
    (hdec : ∀ r ∈ records, r.data ≠ none) :
    commitsAfterDelivery
      (read_message_process R cache tn envs records sl cp t).events = true := by
  induction records generalizing sl cp t with
  | nil => rfl
  | cons record rest ih =>
      rw [read_message_process]
      cases hr : record.data with
      | none => exact absurd hr (hdec record (by simp))
      | some msg =>
          dsimp only
          have hrec := commitsAfterDelivery_recordLoop R cache tn envs msg
            record.offset sl cp 0 t
          have hrest : ∀ r ∈ rest, r.data ≠ none := fun r hrm =>
            hdec r (by simp [hrm])
          split
          · exact hrec
          · exact commitsAfterDelivery_append _ _ hrec (ih _ _ _ hrest)

/-! ### The QoS of a built PUBLISH -/

theorem build_publish_qos (cache : CacheInfo) (s : Subscriber) (tn : String)
    (msg : MQTTMessage) (pub : Publish) (props : PublishProperties)
    (h : build_publish cache s tn msg = some (pub, props)) :
    pub.qos = min_qos cache.max_qos s.qos := by
  unfold build_publish at h
  split at h <;> split at h <;> simp at h <;> rw [← h.2.1]

/-! ### A pump whose deliveries all fail drops the record uncommitted -/

theorem recordLoop_allfail (R : List Subscriber) (cache : CacheInfo)
    (tn : String) (envs : AttemptEnvs) (msg : MQTTMessage) (off : Nat)
    (hR : R ≠ [])
    (hq1 : ∀ s, (envs.q1 s).wait_ack = none)
    (hq2 : ∀ s, (envs.q2 s).rec_waits = [])
    (hbp : ∀ s ∈ R, ∃ pub props, build_publish cache s tn msg = some (pub, props))
    (hqos : ∀ s ∈ R, min_qos cache.max_qos s.qos ≠ QoS.AtMostOnce) :
    ∀ (sl : List Subscriber) (cp lt t : Nat), sl = R →
      (recordLoop R cache tn envs msg off sl cp lt t).outcome
          = RecordOutcome.dropped
        ∧ (recordLoop R cache tn envs msg off sl cp lt t).events.countP
            Ev.isCommit = 0
        ∧ (recordLoop R cache tn envs msg off sl cp lt t).events.countP
            Ev.isRemoveAck = 0
        ∧ (recordLoop R cache tn envs msg off sl cp lt t).events.countP
            Ev.isRemovePkid = 0
        ∧ (recordLoop R cache tn envs msg off sl cp lt t).events.countP
            Ev.isAddAck = R.length + 1 - lt := by
  intro sl cp lt t
  induction sl, cp, lt, t using recordLoop.induct R cache tn envs msg off with
  | case1 sub_list cursor_point loop_times t sl1 hlen =>
      intro hsl
      unfold_let sl1 at hlen
      rw [hsl] at hlen
      simp only [dite_eq_ite, ite_self] at hlen
      exact absurd (List.length_eq_zero.mp hlen) hR
  | case2 sub_list cursor_point loop_times t sl1 hlen hgt =>
      intro hsl
      unfold_let sl1 at hlen hgt
      rw [hsl] at hlen hgt
      simp only [dite_eq_ite, ite_self] at hlen hgt
      rw [hsl]
      rw [recordLoop]
      simp only [dite_eq_ite, ite_self]
      rw [if_neg hlen, if_pos hgt]
      refine ⟨rfl, rfl, rfl, rfl, ?_⟩
      simp only [List.countP_nil]
      omega
  | case3 sub_list cursor_point loop_times t sl1 current_point hlen hgt subscribe hbpn =>
      intro hsl
      unfold_let subscribe sl1 current_point at hbpn
      rw [hsl] at hbpn
      simp only [dite_eq_ite, ite_self] at hbpn
      have hcur : (if cursor_point < R.length then cursor_point else 0)
          < R.length := by
        by_cases hc : cursor_point < R.length
        · simpa [hc] using hc
        · simp only [hc, if_false]
          exact List.length_pos.mpr hR
      have hmem : R.getD (if cursor_point < R.length then cursor_point else 0)
          default ∈ R := by
        rw [List.getD_eq_getElem _ _ hcur]
        exact List.getElem_mem _
      rcases hbp _ hmem with ⟨pub, props, hsome⟩
      rw [hbpn] at hsome
      exact absurd hsome (by simp)
  | case4 sub_list cursor_point loop_times t sl1 current_point hlen hgt subscribe publish props hbps hq =>
      intro hsl
      unfold_let subscribe sl1 current_point at hbps
      rw [hsl] at hbps
      simp only [dite_eq_ite, ite_self] at hbps
      have hcur : (if cursor_point < R.length then cursor_point else 0)
          < R.length := by
        by_cases hc : cursor_point < R.length
        · simpa [hc] using hc
        · simp only [hc, if_false]
          exact List.length_pos.mpr hR
      have hmem : R.getD (if cursor_point < R.length then cursor_point else 0)
          default ∈ R := by
        rw [List.getD_eq_getElem _ _ hcur]
        exact List.getElem_mem _
      have hq2 := build_publish_qos _ _ _ _ _ _ hbps
      rw [hq] at hq2
      exact absurd hq2.symm (hqos _ hmem)
  | case5 sub_list cursor_point loop_times t sl1 current_point hlen hgt subscribe publish props hbps hq pkidv envv u sendEvs hok =>
      intro hsl
      rcases qos1_fail_of_wait_none envv subscribe.client_id
          { publish with pkid := pkidv } pkidv (hq1 t) with ⟨e, he⟩
      rw [hok] at he
      simp at he
  | case6 sub_list cursor_point loop_times t sl1 current_point hlen hgt subscribe cursor' publish props hbps hq pkidv envv e sendEvs herr ih =>
      intro hsl
      unfold_let sl1 at hlen hgt
      unfold_let subscribe sl1 current_point at hbps herr
      unfold_let sl1 cursor' current_point at ih
      rw [hsl] at hlen hgt hbps herr ih
      simp only [dite_eq_ite, ite_self] at hlen hgt hbps herr ih
      rw [hq] at herr
      have hih := ih trivial
      rw [hsl]
      rw [recordLoop]
      simp only [dite_eq_ite, ite_self]
      rw [if_neg hlen, if_neg hgt]
      simp only [hbps, hq]
      split
      · next u2 sendEvs2 heq => exact absurd (herr.symm.trans heq) (by simp)
      · next e2 sendEvs2 heq =>
          have hse := qos1_error_events _ _ _ _ _ _ heq
          rcases hih with ⟨ho, hc, hra, hrp, had⟩
          have hlt : loop_times ≤ R.length := Nat.not_lt.mp hgt
          rcases hse with hse | hse <;> subst hse <;>
            refine ⟨ho, ?_, ?_, ?_, ?_⟩ <;>
            simp [List.countP_cons, List.countP_append, Ev.isAddAck,
              Ev.isCommit, Ev.isRemoveAck, Ev.isRemovePkid, hc, hra, hrp,
              had] <;>
            omega
  | case7 sub_list cursor_point loop_times t sl1 current_point hlen hgt subscribe publish props hbps hq pkidv envv u sendEvs hok =>
      intro hsl
      rcases qos2_fail_of_rec_empty envv subscribe.client_id
          { publish with pkid := pkidv } pkidv off (hq2 t) with ⟨e, he⟩
      rw [hok] at he
      simp at he
  | case8 sub_list cursor_point loop_times t sl1 current_point hlen hgt subscribe cursor' publish props hbps hq pkidv envv e sendEvs herr ih =>
      intro hsl
      unfold_let sl1 at hlen hgt
      unfold_let subscribe sl1 current_point at hbps herr
      unfold_let sl1 cursor' current_point at ih
      rw [hsl] at hlen hgt hbps herr ih
      simp only [dite_eq_ite, ite_self] at hlen hgt hbps herr ih
      rw [hq] at herr
      have hih := ih trivial
      rw [hsl]
      rw [recordLoop]
      simp only [dite_eq_ite, ite_self]
      rw [if_neg hlen, if_neg hgt]
      simp only [hbps, hq]
      split
      · next u2 sendEvs2 heq => exact absurd (herr.symm.trans heq) (by simp)
      · next e2 sendEvs2 heq =>
          have hse := qos2_error_events _ _ _ _ _ _ _ heq
          rcases hih with ⟨ho, hc, hra, hrp, had⟩
          have hlt : loop_times ≤ R.length := Nat.not_lt.mp hgt
          rcases hse with hse | hse <;> subst hse <;>
            refine ⟨ho, ?_, ?_, ?_, ?_⟩ <;>
            simp [List.countP_cons, List.countP_append, Ev.isAddAck,
              Ev.isCommit, Ev.isRemoveAck, Ev.isRemovePkid, hc, hra, hrp,
              had] <;>
            omega

/-! ### Successful attempts deliver to the cursor's member -/

theorem qos1_ok_of_env (env : Qos1Env) (c : String) (pub : Publish) (pk : Nat)
    (cid : Nat) (h1 : env.get_connect_id = some cid)
    (h2 : env.get_connection = none)
    (h3 : env.send_result = Except.ok ())
    (h4 : env.wait_ack = some ⟨QosAckPackageType.PubAck, pk⟩) :
    share_leader_publish_message_qos1 env c pub pk
      = (Except.ok (), [Ev.qos1Send c pk, Ev.pubackOk c pk]) := by
  unfold share_leader_publish_message_qos1
  rcases env with ⟨e1, e2, e3, e4, e5⟩
  simp only at h1 h2 h3 h4
  subst h1 h2 h3 h4
  simp

theorem qos2_ok_of_env (env : Qos2Env) (c : String) (pub : Publish)
    (pk off : Nat) (h1 : env.send_result = Except.ok ())
    (h2 : env.rec_waits = [some ⟨QosAckPackageType.PubRec, pk⟩]) :
    share_leader_publish_message_qos2 env c pub pk off
      = (Except.ok (), Ev.qos2Send c pk :: [Ev.pubrecOk c pk, Ev.commit off]
          ++ [Ev.pubrelSend c pk] ++ qos2_wait_comp c pk env.comp_waits) := by
  unfold share_leader_publish_message_qos2
  rcases env with ⟨e1, e2, e3⟩
  simp only at h1 h2
  subst h1 h2
  simp [qos2_wait_rec]

/-- All-success environments: every QoS 1 and QoS 2 wait answers with the
matching ack. -/
def successEnvs (envs : AttemptEnvs) : Prop :=
  (∀ s, ∃ cid, (envs.q1 s).get_connect_id = some cid)
    ∧ (∀ s, (envs.q1 s).get_connection = none)
    ∧ (∀ s, (envs.q1 s).send_result = Except.ok ())
    ∧ (∀ s, (envs.q1 s).wait_ack
        = some ⟨QosAckPackageType.PubAck, envs.pkid s⟩)
    ∧ (∀ s, (envs.q2 s).send_result = Except.ok ())
    ∧ (∀ s, (envs.q2 s).rec_waits
        = [some ⟨QosAckPackageType.PubRec, envs.pkid s⟩])

theorem recordLoop_success (R : List Subscriber) (cache : CacheInfo)
    (tn : String) (envs : AttemptEnvs) (msg : MQTTMessage) (off : Nat)
    (hR : R ≠ []) (hsucc : successEnvs envs)
    (hbp : ∀ s ∈ R, ∃ pub props, build_publish cache s tn msg = some (pub, props))
    (cp t : Nat) :
    (recordLoop R cache tn envs msg off R cp 0 t).outcome
        = RecordOutcome.delivered (if cp < R.length then cp else 0)
      ∧ (recordLoop R cache tn envs msg off R cp 0 t).sub_list = R
      ∧ (recordLoop R cache tn envs msg off R cp 0 t).cursor_point
          = (if cp < R.length then cp else 0) + 1 := by
  obtain ⟨hc1, hc2, hc3, hc4, hc5, hc6⟩ := hsucc
  have hlen : ¬ R.length = 0 := fun h => hR (List.length_eq_zero.mp h)
  have hgt : ¬ (0 > R.length) := by omega
  have hcur : (if cp < R.length then cp else 0) < R.length := by
    by_cases hc : cp < R.length
    · simpa [hc] using hc
    · simp only [hc, if_false]
      exact List.length_pos.mpr hR
  have hmem : R.getD (if cp < R.length then cp else 0) default ∈ R := by
    rw [List.getD_eq_getElem _ _ hcur]
    exact List.getElem_mem _
  rcases hbp _ hmem with ⟨pub, props, hsome⟩
  rw [recordLoop]
  simp only [dite_eq_ite, ite_self]
  rw [if_neg hlen, if_neg hgt]
  simp only [hsome]
  cases hq : pub.qos with
  | AtMostOnce => exact ⟨rfl, rfl, rfl⟩
  | AtLeastOnce =>
      rcases hc1 t with ⟨cid, hcid⟩
      have hok := qos1_ok_of_env (envs.q1 t)
        (R.getD (if cp < R.length then cp else 0) default).client_id
        { pub with pkid := envs.pkid t } (envs.pkid t) cid hcid (hc2 t)
        (hc3 t) (hc4 t)
      rw [hq] at hok
      simp only [List.getD_eq_getElem?_getD] at hok
      simp [hok]
  | ExactlyOnce =>
      have hok := qos2_ok_of_env (envs.q2 t)
        (R.getD (if cp < R.length then cp else 0) default).client_id
        { pub with pkid := envs.pkid t } (envs.pkid t) off (hc5 t) (hc6 t)
      rw [hq] at hok
      simp only [List.getD_eq_getElem?_getD] at hok
      simp [hok]

/-! ### Round-robin arithmetic -/

theorem start_eq_mod (k i : Nat) (hi : i < k) :
    (if i + 1 < k then i + 1 else 0) = (i + 1) % k := by
  by_cases h : i + 1 < k
  · simp [h, Nat.mod_eq_of_lt h]
  · have hk : i + 1 = k := by omega
    simp [h, hk, Nat.mod_self]

theorem roundrobin_cons (k i0 n : Nat) (hi : i0 < k) :
    RecordOutcome.delivered i0 ::
        (List.range n).map (fun j =>
          RecordOutcome.delivered (((if i0 + 1 < k then i0 + 1 else 0) + j) % k))
      = (List.range (n + 1)).map (fun j =>
          RecordOutcome.delivered ((i0 + j) % k)) := by
  rw [List.range_succ_eq_map, List.map_cons, List.map_map]
  refine congrArg₂ _ ?_ ?_
  · rw [Nat.add_zero, Nat.mod_eq_of_lt hi]
  · refine List.map_congr_left ?_
    intro j _
    simp only [Function.comp]
    rw [start_eq_mod k i0 hi, Nat.mod_add_mod]
    have : i0 + 1 + j = i0 + (j + 1) := by omega
    rw [this]

/-- Under all-success oracles and stable membership, the batch dispatches
records cyclically: the j-th record of the batch goes to member
`(start + j) mod |R|`. -/
theorem read_message_process_success (R : List Subscriber) (cache : CacheInfo)
    (tn : String) (envs : AttemptEnvs) (hR : R ≠ [])
    (hsucc : successEnvs envs) :
    ∀ (records : List Record),
      (∀ r ∈ records, ∃ m, r.data = some m
        ∧ ∀ s ∈ R, ∃ pub props, build_publish cache s tn m = some (pub, props)) →
      ∀ (cp t : Nat),
        (read_message_process R cache tn envs records R cp t).outcomes
          = (List.range records.length).map (fun j =>
              RecordOutcome.delivered
                (((if cp < R.length then cp else 0) + j) % R.length)) := by
  intro records
  induction records with
  | nil => intro _ cp t; rfl
  | cons record rest ih =>
      intro hrec cp t
      have hcur : (if cp < R.length then cp else 0) < R.length := by
        by_cases hc : cp < R.length
        · simpa [hc] using hc
        · simp only [hc, if_false]
          exact List.length_pos.mpr hR
      obtain ⟨m, hm, hbpm⟩ := hrec record (by simp)
      obtain ⟨ho, hsl, hcp⟩ :=
        recordLoop_success R cache tn envs m record.offset hR hsucc hbpm cp t
      rw [read_message_process]
      simp only [hm]
      rw [ho, hsl, hcp]
      simp only []
      rw [ih (fun r hr => hrec r (by simp [hr])) _ _]
      simpa using roundrobin_cons R.length (if cp < R.length then cp else 0)
        rest.length hcur

/-- Number of `j < n` with `j % k = r`. -/
theorem countP_range_mod (k r : Nat) (hk : 0 < k) (hrk : r < k) (n : Nat) :
    (List.range n).countP (fun j => j % k == r)
      = n / k + (if r < n % k then 1 else 0) := by
  induction n with
  | zero => simp [Nat.zero_div]
  | succ n ihn =>
      rw [List.range_succ, List.countP_append, ihn]
      have hdm := Nat.div_add_mod n k
      have hmlt : n % k < k := Nat.mod_lt _ hk
      by_cases hlast : n % k + 1 = k
      · have e1 : n + 1 = k * (n / k + 1) := by
          rw [Nat.mul_succ]
          omega
        have h2 : (n + 1) / k = n / k + 1 := by
          rw [e1, Nat.mul_div_cancel_left _ hk]
        have h3 : (n + 1) % k = 0 := by
          rw [e1, Nat.mul_mod_right]
        rw [h2, h3]
        simp only [List.countP_cons, List.countP_nil, beq_iff_eq]
        split_ifs <;> omega
      · have e1 : n + 1 = (n % k + 1) + k * (n / k) := by omega
        have h2 : (n + 1) / k = n / k := by
          rw [e1, Nat.add_mul_div_left _ _ hk,
            Nat.div_eq_of_lt (by omega : n % k + 1 < k)]
          omega
        have h3 : (n + 1) % k = n % k + 1 := by
          rw [e1, Nat.add_mul_mod_self_left,
            Nat.mod_eq_of_lt (by omega : n % k + 1 < k)]
        rw [h2, h3]
        simp only [List.countP_cons, List.countP_nil, beq_iff_eq]
        split_ifs <;> omega

theorem mod_shift (k s i : Nat) (hk : 0 < k) (hs : s < k) (hi : i < k)
    (j : Nat) : ((s + j) % k = i) ↔ (j % k = (i + k - s) % k) := by
  have hmlt : j % k < k := Nat.mod_lt _ hk
  have h1 : (s + j) % k = (s + j % k) % k := by
    rw [Nat.add_mod s j k, Nat.mod_eq_of_lt hs]
  have hA : (s + j % k) % k
      = if s + j % k < k then s + j % k else s + j % k - k := by
    split
    · next h => exact Nat.mod_eq_of_lt h
    · next h =>
        have e : s + j % k = (s + j % k - k) + k := by omega
        conv_lhs => rw [e]
        rw [Nat.add_mod_right]
        apply Nat.mod_eq_of_lt
        omega
  have hB : (i + k - s) % k = if i < s then i + k - s else i - s := by
    split
    · next h =>
        apply Nat.mod_eq_of_lt
        omega
    · next h =>
        have e : i + k - s = (i - s) + k := by omega
        rw [e, Nat.add_mod_right]
        apply Nat.mod_eq_of_lt
        omega
  rw [h1, hA, hB]
  split_ifs <;> omega

/-- Each member index receives `⌊n/k⌋` or `⌊n/k⌋ + 1` of the `n` records
a round-robin dispatch distributes. -/
theorem delivered_count_bound (k s i n : Nat) (hk : 0 < k) (hs : s < k)
    (hi : i < k) :
    n / k
        ≤ ((List.range n).map (fun j =>
            RecordOutcome.delivered ((s + j) % k))).countP
            (fun o => o == RecordOutcome.delivered i)
      ∧ ((List.range n).map (fun j =>
            RecordOutcome.delivered ((s + j) % k))).countP
            (fun o => o == RecordOutcome.delivered i)
          ≤ n / k + 1 := by
  rw [List.countP_map]
  have hrk : (i + k - s) % k < k := Nat.mod_lt _ hk
  have hcong : ∀ j ∈ List.range n,
      ((fun o => o == RecordOutcome.delivered i)
        ∘ (fun j => RecordOutcome.delivered ((s + j) % k))) j = true
        ↔ (fun j => j % k == (i + k - s) % k) j = true := by
    intro j _
    simp only [Function.comp, beq_iff_eq, RecordOutcome.delivered.injEq]
    exact mod_shift k s i hk hs hi j
  rw [List.countP_congr hcong, countP_range_mod k _ hk hrk n]
  split_ifs <;> omega

/-! ### Claim C1: effective QoS of `build_publish` -/

/-- C1 counterexample: `build_publish` never consults the message's own
QoS.  With cluster max QoS 2 and subscription QoS 2 but a QoS 0 message,
the built PUBLISH has QoS 2, exceeding the message's QoS — refuting
"effective QoS = min(cluster_max_qos, subscribe.qos, message.qos)". -/
theorem C1_counterexample :
    (build_publish ⟨QoS.ExactlyOnce⟩
        ⟨"s1", none, QoS.ExactlyOnce, false, false⟩ "t"
        ⟨"m", false, "p", none, none, none, none, [], none, QoS.AtMostOnce⟩).map
        (fun p => p.1.qos)
      = some QoS.ExactlyOnce
    ∧ (MQTTMessage.qos
        ⟨"m", false, "p", none, none, none, none, [], none, QoS.AtMostOnce⟩)
      = QoS.AtMostOnce
    ∧ ¬ (QoS.ExactlyOnce.toNat ≤ QoS.AtMostOnce.toNat) := by
  refine ⟨rfl, rfl, by decide⟩

/-- C1 (amended): every PUBLISH built by `build_publish` has effective
QoS `min_qos(cluster_max_qos, subscribe.qos)` — the message's own QoS is
not consulted — and hence never exceeds the cluster maximum or the
subscription QoS. -/
theorem C1_amended (cache : CacheInfo) (s : Subscriber) (tn : String)
    (msg : MQTTMessage) (pub : Publish) (props : PublishProperties)
    (h : build_publish cache s tn msg = some (pub, props)) :
    pub.qos = min_qos cache.max_qos s.qos
      ∧ pub.qos.toNat ≤ cache.max_qos.toNat
      ∧ pub.qos.toNat ≤ s.qos.toNat := by
  have hq := build_publish_qos cache s tn msg pub props h
  refine ⟨hq, ?_, ?_⟩ <;> rw [hq] <;> unfold min_qos <;> split <;> omega

/-- C1 witness: `C1_amended` at a concrete subscriber and message. -/
theorem C1_witness :
    build_publish ⟨QoS.AtLeastOnce⟩
        ⟨"a", some 5, QoS.ExactlyOnce, false, true⟩ "t"
        ⟨"m", true, "pl", none, none, none, none, [], none, QoS.AtMostOnce⟩
      = some (⟨false, QoS.AtLeastOnce, 0, true, "t", "pl"⟩,
          ⟨none, none, none, none, none, [], [5], none⟩)
    ∧ (QoS.AtLeastOnce = min_qos QoS.AtLeastOnce QoS.ExactlyOnce
        ∧ QoS.AtLeastOnce.toNat ≤ QoS.AtLeastOnce.toNat
        ∧ QoS.AtLeastOnce.toNat ≤ QoS.ExactlyOnce.toNat) :=
  ⟨rfl, C1_amended ⟨QoS.AtLeastOnce⟩ ⟨"a", some 5, QoS.ExactlyOnce, false, true⟩
    "t" ⟨"m", true, "pl", none, none, none, none, [], none, QoS.AtMostOnce⟩
    ⟨false, QoS.AtLeastOnce, 0, true, "t", "pl"⟩
    ⟨none, none, none, none, none, [], [5], none⟩ rfl⟩

/-! ### Claim C7: records per shared-leader read batch -/

/-- C7 counterexample: with one member, `calc_record_num` returns 5 —
below the claimed lower clamp of 100 and different from
`clamp(1·5, 100, 1000) = 100`. -/
theorem C7_counterexample :
    calc_record_num 1 = 5
    ∧ ¬ (100 ≤ calc_record_num 1)
    ∧ calc_record_num 1 ≠ max 100 (min (1 * 5) 1000) := by
  decide

/-- C7 (amended): the records requested per read batch are 100 for an
empty member list and `min(m·5, 1000)` otherwise; the count never exceeds
1000 but can drop below 100 (it is not clamped from below). -/
theorem C7_amended (m : Nat) :
    calc_record_num m ≤ 1000
    ∧ calc_record_num m = (if m = 0 then 100 else min (m * 5) 1000) := by
  simp only [calc_record_num]
  split_ifs <;> omega

/-! ### Claim C8: user storage get/save/delete algebra -/

theorem storage_key_mqtt_user_inj (c u u' : String)
    (h : storage_key_mqtt_user c u = storage_key_mqtt_user c u') : u = u' := by
  unfold storage_key_mqtt_user at h
  have hd := congrArg String.data h
  simp only [String.data_append, List.append_assoc] at hd
  simp only [List.append_right_inj] at hd
  cases u
  cases u'
  simp_all

/-- C8: on the user storage, `get` after `save` returns the saved record,
`get` after `delete` returns `none`, and saving or deleting one username
leaves every other username of the cluster unchanged. -/
theorem C8_user_storage (kv : KVStore) (c u u' : String) (rec : MQTTUser) :
    MQTTUserStorage.get (MQTTUserStorage.save kv c u rec) c u = some rec
    ∧ MQTTUserStorage.get (MQTTUserStorage.delete kv c u) c u = none
    ∧ (u' ≠ u →
        MQTTUserStorage.get (MQTTUserStorage.save kv c u rec) c u'
          = MQTTUserStorage.get kv c u'
        ∧ MQTTUserStorage.get (MQTTUserStorage.delete kv c u) c u'
          = MQTTUserStorage.get kv c u') := by
  have hkey : ∀ hne : u' ≠ u,
      storage_key_mqtt_user c u' ≠ storage_key_mqtt_user c u :=
    fun hne hk => hne (storage_key_mqtt_user_inj c u' u hk)
  refine ⟨?_, ?_, fun hne => ⟨?_, ?_⟩⟩
  · simp [MQTTUserStorage.get, MQTTUserStorage.save, engine_get_by_cluster,
      engine_save_by_cluster]
  · simp [MQTTUserStorage.get, MQTTUserStorage.delete, engine_get_by_cluster,
      engine_delete_by_cluster]
  · simp [MQTTUserStorage.get, MQTTUserStorage.save, engine_get_by_cluster,
      engine_save_by_cluster, hkey hne]
  · simp [MQTTUserStorage.get, MQTTUserStorage.delete, engine_get_by_cluster,
      engine_delete_by_cluster, hkey hne]

/-- C8 witness: the storage algebra at a concrete cluster and two
usernames. -/
theorem C8_witness :
    MQTTUserStorage.get
        (MQTTUserStorage.save (fun _ => none) "cl" "alice"
          ⟨"alice", "pw", false⟩) "cl" "alice"
      = some ⟨"alice", "pw", false⟩
    ∧ MQTTUserStorage.get
        (MQTTUserStorage.delete (fun _ => none) "cl" "alice") "cl" "alice"
      = none
    ∧ (MQTTUserStorage.get
          (MQTTUserStorage.save (fun _ => none) "cl" "alice"
            ⟨"alice", "pw", false⟩) "cl" "bob"
        = MQTTUserStorage.get (fun _ => none) "cl" "bob"
      ∧ MQTTUserStorage.get
          (MQTTUserStorage.delete (fun _ => none) "cl" "alice") "cl" "bob"
        = MQTTUserStorage.get (fun _ => none) "cl" "bob") := by
  have h := C8_user_storage (fun _ => none) "cl" "alice" "bob"
    ⟨"alice", "pw", false⟩
  exact ⟨h.1, h.2.1, h.2.2 (by decide)⟩

/-! ### Claim C9: plaintext authentication -/

/-- C9: plaintext authentication returns `Ok false` (no error) for an
unknown username, and for a present user returns `Ok true` exactly when
the supplied password equals the stored one. -/
theorem C9_plaintext_auth (user_info : String → Option User) (login : Login) :
    (user_info login.username = none →
      Plaintext.apply user_info login = Except.ok false)
    ∧ (∀ u, user_info login.username = some u →
        (Plaintext.apply user_info login = Except.ok true
          ↔ u.password = login.password)
        ∧ (u.password ≠ login.password →
            Plaintext.apply user_info login = Except.ok false)) := by
  constructor
  · intro hn
    unfold Plaintext.apply
    rw [hn]
  · intro u hu
    unfold Plaintext.apply
    rw [hu]
    constructor
    · constructor
      · intro h
        have : (u.password == login.password) = true := by
          simpa using h
        exact beq_iff_eq.mp this
      · intro h
        simp [h]
    · intro h
      simp [h]

/-- C9 witness: authentication decisions for a present user with the
right password, a present user with a wrong password, and an absent
user. -/
theorem C9_witness :
    Plaintext.apply (fun n => if n = "alice" then some ⟨"alice", "pw"⟩ else none)
        ⟨"alice", "pw"⟩ = Except.ok true
    ∧ Plaintext.apply (fun n => if n = "alice" then some ⟨"alice", "pw"⟩ else none)
        ⟨"alice", "xx"⟩ = Except.ok false
    ∧ Plaintext.apply (fun n => if n = "alice" then some ⟨"alice", "pw"⟩ else none)
        ⟨"bob", "pw"⟩ = Except.ok false := by
  refine ⟨?_, ?_, ?_⟩
  · exact ((C9_plaintext_auth
      (fun n => if n = "alice" then some ⟨"alice", "pw"⟩ else none)
      ⟨"alice", "pw"⟩).2 ⟨"alice", "pw"⟩ (by decide)).1.mpr rfl
  · exact ((C9_plaintext_auth
      (fun n => if n = "alice" then some ⟨"alice", "pw"⟩ else none)
      ⟨"alice", "xx"⟩).2 ⟨"alice", "pw"⟩ (by decide)).2 (by decide)
  · exact (C9_plaintext_auth
      (fun n => if n = "alice" then some ⟨"alice", "pw"⟩ else none)
      ⟨"bob", "pw"⟩).1 (by decide)

/-! ### Claim C4: keep-alive sweeper -/

/-- Does this request package carry the `heartbeat_close=true` user
property? -/
def disconnect_has_heartbeat_close (p : RequestPackage) : Bool :=
  match p.packet with
  | MQTTPacket.disconnect _ (some props) =>
      props.user_properties.contains ("heartbeat_close", "true")
  | MQTTPacket.disconnect _ none => false

/-- C4 counterexample: an expired MQTT4 connection is sent a DISCONNECT
with `None` properties, so the enqueued packet does not carry the claimed
`heartbeat_close=true` user property. -/
theorem C4_counterexample :
    heartbeat_check_connection 100 5 ⟨10, 10, MQTTProtocol.MQTT4⟩
      = ([⟨5, MQTTPacket.disconnect
            ⟨DisconnectReasonCode.AdministrativeAction⟩ none⟩], [])
    ∧ (heartbeat_check_connection 100 5 ⟨10, 10, MQTTProtocol.MQTT4⟩).1.all
        disconnect_has_heartbeat_close = false := by
  constructor
  · decide
  · decide

/-- C4 (amended): a connection whose `now − last_seen` exceeds twice its
keep-alive receives a DISCONNECT with reason `AdministrativeAction` on
the request queue of its protocol — with the `heartbeat_close=true` user
property only on MQTT5 (the MQTT4 packet carries no properties) — and a
connection within the grace period receives nothing. -/
theorem C4_amended (now connect_id : Nat) (time : ConnectionLiveTime)
    (hhb : time.heartbeat ≤ now) (hnow : now < u64Mod) :
    ((now - time.heartbeat > time.keep_live * 2) →
      (time.protobol = MQTTProtocol.MQTT4 →
        heartbeat_check_connection now connect_id time
          = ([⟨connect_id, MQTTPacket.disconnect
                ⟨DisconnectReasonCode.AdministrativeAction⟩ none⟩], []))
      ∧ (time.protobol = MQTTProtocol.MQTT5 →
        heartbeat_check_connection now connect_id time
          = ([], [⟨connect_id, MQTTPacket.disconnect
                ⟨DisconnectReasonCode.AdministrativeAction⟩
                (some ⟨none,
                  some "The connection was closed by the server because the heartbeat timeout was not reported.",
                  [("heartbeat_close", "true")], none⟩)⟩])))
    ∧ ((now - time.heartbeat ≤ time.keep_live * 2) →
        heartbeat_check_connection now connect_id time = ([], [])) := by
  have helapsed : (u64Mod + now - time.heartbeat) % u64Mod
      = now - time.heartbeat := by
    have h1 : u64Mod + now - time.heartbeat
        = (now - time.heartbeat) + u64Mod := by omega
    rw [h1, Nat.add_mod_right]
    exact Nat.mod_eq_of_lt (by omega)
  constructor
  · intro hgt
    constructor
    · intro hp
      simp only [heartbeat_check_connection]
      rw [helapsed, if_pos hgt]
      simp [hp]
    · intro hp
      simp only [heartbeat_check_connection]
      rw [helapsed, if_pos hgt]
      simp [hp]
  · intro hle
    simp only [heartbeat_check_connection]
    rw [helapsed, if_neg (by omega)]

/-- C4 witness: `C4_amended` at an expired MQTT5 connection and at a
connection still within its grace period. -/
theorem C4_witness :
    heartbeat_check_connection 100 5 ⟨10, 10, MQTTProtocol.MQTT5⟩
      = ([], [⟨5, MQTTPacket.disconnect
            ⟨DisconnectReasonCode.AdministrativeAction⟩
            (some ⟨none,
              some "The connection was closed by the server because the heartbeat timeout was not reported.",
              [("heartbeat_close", "true")], none⟩)⟩])
    ∧ heartbeat_check_connection 100 7 ⟨30, 90, MQTTProtocol.MQTT4⟩
      = ([], []) := by
  constructor
  · exact ((C4_amended 100 5 ⟨10, 10, MQTTProtocol.MQTT5⟩ (by decide)
      (by decide)).1 (by decide)).2 rfl
  · exact (C4_amended 100 7 ⟨30, 90, MQTTProtocol.MQTT4⟩ (by decide)
      (by decide)).2 (by decide)

/-! ### Claim C2: offsets commit only after delivery -/

/-- C2 counterexample: the exclusive pump (`topic_sub_push_thread`)
commits the batch's last offset immediately after the storage read,
before any PUBLISH reaches the response queue: its first emitted event is
already the commit. -/
theorem C2_counterexample :
    topic_sub_push_iteration
        (fun c => if c = "c1" then some ⟨some 7⟩ else none)
        [⟨"c1", 2, MQTTProtocol.MQTT5, none, QoS.AtLeastOnce, false⟩]
        [⟨1, some ⟨"m", false, "p", none, none, none, none, [], none,
          QoS.AtMostOnce⟩⟩]
      = [Ev.commit 1, Ev.respSend5 7 1]
    ∧ commitsAfterDelivery [Ev.commit 1, Ev.respSend5 7 1] = false := by
  constructor
  · rfl
  · decide

/-- C2 (amended): in the shared-leader pump, for every batch whose
records all decode, each offset commit is immediately preceded by the
delivery that earned it (QoS 0 egress write, matched PUBACK or matched
PUBREC), and the trace never begins with a commit.  (Undecodable records
are committed without a delivery — see C10 — and the exclusive pump of
`push.rs` commits before delivering — see the counterexample.) -/
theorem C2_amended (R : List Subscriber) (cache : CacheInfo) (tn : String)
    (envs : AttemptEnvs) (records : List Record) (sl : List Subscriber)
    (cp t : Nat) (hdec : ∀ r ∈ records, r.data ≠ none) :
    commitsAfterDelivery
      (read_message_process R cache tn envs records sl cp t).events = true :=
  commitsAfterDelivery_read_message_process R cache tn envs records sl cp t hdec

/-- C2 witness: `C2_amended` on a concrete one-record batch. -/
theorem C2_witness :
    commitsAfterDelivery
      (read_message_process
        [⟨"a", none, QoS.AtMostOnce, false, false⟩] ⟨QoS.ExactlyOnce⟩ "t"
        ⟨fun _ => 1,
         fun _ => ⟨some 1, none, some MQTTProtocol.MQTT5, Except.ok (), none⟩,
         fun _ => ⟨Except.ok (), [], []⟩⟩
        [⟨7, some ⟨"m", false, "p", none, none, none, none, [], none,
          QoS.AtMostOnce⟩⟩]
        [⟨"a", none, QoS.AtMostOnce, false, false⟩] 0 0).events = true :=
  C2_amended _ _ _ _ _ _ _ _ (by intro r hr; simp at hr; subst hr; simp)

/-! ### Claim C3: a record failing on every member is dropped -/

/-- C3 counterexample: one member whose PUBACK never arrives; the record
is dropped after two failed attempts (more than `|members| = 1`), but no
offset commit is emitted — refuting "offset still committed". -/
theorem C3_counterexample :
    (recordLoop [⟨"a", none, QoS.AtLeastOnce, false, false⟩]
        ⟨QoS.ExactlyOnce⟩ "t"
        ⟨fun _ => 1,
         fun _ => ⟨some 1, none, some MQTTProtocol.MQTT5, Except.ok (), none⟩,
         fun _ => ⟨Except.ok (), [], []⟩⟩
        ⟨"m", false, "p", none, none, none, none, [], none, QoS.AtMostOnce⟩ 7
        [⟨"a", none, QoS.AtLeastOnce, false, false⟩] 0 0 0).outcome
      = RecordOutcome.dropped
    ∧ (recordLoop [⟨"a", none, QoS.AtLeastOnce, false, false⟩]
        ⟨QoS.ExactlyOnce⟩ "t"
        ⟨fun _ => 1,
         fun _ => ⟨some 1, none, some MQTTProtocol.MQTT5, Except.ok (), none⟩,
         fun _ => ⟨Except.ok (), [], []⟩⟩
        ⟨"m", false, "p", none, none, none, none, [], none, QoS.AtMostOnce⟩ 7
        [⟨"a", none, QoS.AtLeastOnce, false, false⟩] 0 0 0).events.countP
        Ev.isAddAck = 2
    ∧ (recordLoop [⟨"a", none, QoS.AtLeastOnce, false, false⟩]
        ⟨QoS.ExactlyOnce⟩ "t"
        ⟨fun _ => 1,
         fun _ => ⟨some 1, none, some MQTTProtocol.MQTT5, Except.ok (), none⟩,
         fun _ => ⟨Except.ok (), [], []⟩⟩
        ⟨"m", false, "p", none, none, none, none, [], none, QoS.AtMostOnce⟩ 7
        [⟨"a", none, QoS.AtLeastOnce, false, false⟩] 0 0 0).events.countP
        Ev.isCommit = 0 := by
  have h := recordLoop_allfail [⟨"a", none, QoS.AtLeastOnce, false, false⟩]
    ⟨QoS.ExactlyOnce⟩ "t"
    ⟨fun _ => 1,
     fun _ => ⟨some 1, none, some MQTTProtocol.MQTT5, Except.ok (), none⟩,
     fun _ => ⟨Except.ok (), [], []⟩⟩
    ⟨"m", false, "p", none, none, none, none, [], none, QoS.AtMostOnce⟩ 7
    (by decide) (fun _ => rfl) (fun _ => rfl)
    (by intro s hs; simp at hs; subst hs; exact ⟨_, _, rfl⟩)
    (by intro s hs; simp at hs; subst hs; decide)
    [⟨"a", none, QoS.AtLeastOnce, false, false⟩] 0 0 0 rfl
  exact ⟨h.1, by simpa using h.2.2.2.2, h.2.1⟩

/-- C3 (amended): in the shared-leader pump, a record whose delivery
fails on every attempt is dropped after `|members| + 1` failed attempts
WITHOUT committing its offset; the group offset moves past it only when a
later record commits. -/
theorem C3_amended (R : List Subscriber) (cache : CacheInfo) (tn : String)
    (envs : AttemptEnvs) (msg : MQTTMessage) (off cp t : Nat)
    (hR : R ≠ [])
    (hq1 : ∀ s, (envs.q1 s).wait_ack = none)
    (hq2 : ∀ s, (envs.q2 s).rec_waits = [])
    (hbp : ∀ s ∈ R, ∃ pub props, build_publish cache s tn msg = some (pub, props))
    (hqos : ∀ s ∈ R, min_qos cache.max_qos s.qos ≠ QoS.AtMostOnce) :
    (recordLoop R cache tn envs msg off R cp 0 t).outcome
        = RecordOutcome.dropped
    ∧ (recordLoop R cache tn envs msg off R cp 0 t).events.countP
        Ev.isAddAck = R.length + 1
    ∧ (recordLoop R cache tn envs msg off R cp 0 t).events.countP
        Ev.isCommit = 0 := by
  have h := recordLoop_allfail R cache tn envs msg off hR hq1 hq2 hbp hqos
    R cp 0 t rfl
  exact ⟨h.1, by simpa using h.2.2.2.2, h.2.1⟩

/-- C3 witness: `C3_amended` on a two-member group whose deliveries all
time out. -/
theorem C3_witness :
    (recordLoop
        [⟨"a", none, QoS.AtLeastOnce, false, false⟩,
         ⟨"b", none, QoS.ExactlyOnce, false, false⟩]
        ⟨QoS.ExactlyOnce⟩ "t"
        ⟨fun _ => 1,
         fun _ => ⟨some 1, none, some MQTTProtocol.MQTT5, Except.ok (), none⟩,
         fun _ => ⟨Except.ok (), [], []⟩⟩
        ⟨"m", false, "p", none, none, none, none, [], none, QoS.AtMostOnce⟩ 7
        [⟨"a", none, QoS.AtLeastOnce, false, false⟩,
         ⟨"b", none, QoS.ExactlyOnce, false, false⟩] 0 0 0).outcome
      = RecordOutcome.dropped
    ∧ (recordLoop
        [⟨"a", none, QoS.AtLeastOnce, false, false⟩,
         ⟨"b", none, QoS.ExactlyOnce, false, false⟩]
        ⟨QoS.ExactlyOnce⟩ "t"
        ⟨fun _ => 1,
         fun _ => ⟨some 1, none, some MQTTProtocol.MQTT5, Except.ok (), none⟩,
         fun _ => ⟨Except.ok (), [], []⟩⟩
        ⟨"m", false, "p", none, none, none, none, [], none, QoS.AtMostOnce⟩ 7
        [⟨"a", none, QoS.AtLeastOnce, false, false⟩,
         ⟨"b", none, QoS.ExactlyOnce, false, false⟩] 0 0 0).events.countP
        Ev.isAddAck = 3
    ∧ (recordLoop
        [⟨"a", none, QoS.AtLeastOnce, false, false⟩,
         ⟨"b", none, QoS.ExactlyOnce, false, false⟩]
        ⟨QoS.ExactlyOnce⟩ "t"
        ⟨fun _ => 1,
         fun _ => ⟨some 1, none, some MQTTProtocol.MQTT5, Except.ok (), none⟩,
         fun _ => ⟨Except.ok (), [], []⟩⟩
        ⟨"m", false, "p", none, none, none, none, [], none, QoS.AtMostOnce⟩ 7
        [⟨"a", none, QoS.AtLeastOnce, false, false⟩,
         ⟨"b", none, QoS.ExactlyOnce, false, false⟩] 0 0 0).events.countP
        Ev.isCommit = 0 :=
  C3_amended
    [⟨"a", none, QoS.AtLeastOnce, false, false⟩,
     ⟨"b", none, QoS.ExactlyOnce, false, false⟩]
    ⟨QoS.ExactlyOnce⟩ "t"
    ⟨fun _ => 1,
     fun _ => ⟨some 1, none, some MQTTProtocol.MQTT5, Except.ok (), none⟩,
     fun _ => ⟨Except.ok (), [], []⟩⟩
    ⟨"m", false, "p", none, none, none, none, [], none, QoS.AtMostOnce⟩ 7 0 0
    (by decide) (fun _ => rfl) (fun _ => rfl)
    (by intro s hs; simp at hs; rcases hs with h | h <;> subst h <;>
      exact ⟨_, _, rfl⟩)
    (by intro s hs; simp at hs; rcases hs with h | h <;> subst h <;> decide)

/-! ### Claim C5: QoS 1 ack timeout -/

/-- C5 counterexample: a QoS 1 attempt whose PUBACK wait returns nothing
fails, but the pump removes neither the ack waiter nor the pkid: two
waiters are registered (`addAck` twice for the single member) and no
`removeAck`/`removePkid` ever appears — refuting "the pkid is freed". -/
theorem C5_counterexample :
    (share_leader_publish_message_qos1
        ⟨some 1, none, some MQTTProtocol.MQTT5, Except.ok (), none⟩ "a"
        ⟨false, QoS.AtLeastOnce, 1, false, "t", "p"⟩ 1).1
      = Except.error (CommonError.CommmonError
          "QOS1 publishes a message and waits for the PubAck packet to fail to be received")
    ∧ (recordLoop [⟨"a", none, QoS.AtLeastOnce, false, false⟩]
        ⟨QoS.ExactlyOnce⟩ "t"
        ⟨fun _ => 1,
         fun _ => ⟨some 1, none, some MQTTProtocol.MQTT5, Except.ok (), none⟩,
         fun _ => ⟨Except.ok (), [], []⟩⟩
        ⟨"m", false, "p", none, none, none, none, [], none, QoS.AtMostOnce⟩ 7
        [⟨"a", none, QoS.AtLeastOnce, false, false⟩] 0 0 0).events.countP
        Ev.isAddAck = 2
    ∧ (recordLoop [⟨"a", none, QoS.AtLeastOnce, false, false⟩]
        ⟨QoS.ExactlyOnce⟩ "t"
        ⟨fun _ => 1,
         fun _ => ⟨some 1, none, some MQTTProtocol.MQTT5, Except.ok (), none⟩,
         fun _ => ⟨Except.ok (), [], []⟩⟩
        ⟨"m", false, "p", none, none, none, none, [], none, QoS.AtMostOnce⟩ 7
        [⟨"a", none, QoS.AtLeastOnce, false, false⟩] 0 0 0).events.countP
        Ev.isRemoveAck = 0 := by
  have h := recordLoop_allfail [⟨"a", none, QoS.AtLeastOnce, false, false⟩]
    ⟨QoS.ExactlyOnce⟩ "t"
    ⟨fun _ => 1,
     fun _ => ⟨some 1, none, some MQTTProtocol.MQTT5, Except.ok (), none⟩,
     fun _ => ⟨Except.ok (), [], []⟩⟩
    ⟨"m", false, "p", none, none, none, none, [], none, QoS.AtMostOnce⟩ 7
    (by decide) (fun _ => rfl) (fun _ => rfl)
    (by intro s hs; simp at hs; subst hs; exact ⟨_, _, rfl⟩)
    (by intro s hs; simp at hs; subst hs; decide)
    [⟨"a", none, QoS.AtLeastOnce, false, false⟩] 0 0 0 rfl
  exact ⟨rfl, by simpa using h.2.2.2.2, h.2.2.1⟩

/-- C5 (amended): when the PUBACK does not arrive, the QoS 1 delivery
returns an error and the pump commits no offset for the attempt; however
the pkid and its ack waiter are NOT removed — the failed attempts leave
their `addAck` registrations in place. -/
theorem C5_amended (R : List Subscriber) (cache : CacheInfo) (tn : String)
    (envs : AttemptEnvs) (msg : MQTTMessage) (off cp t : Nat)
    (hR : R ≠ [])
    (hq1 : ∀ s, (envs.q1 s).wait_ack = none)
    (hq2 : ∀ s, (envs.q2 s).rec_waits = [])
    (hbp : ∀ s ∈ R, ∃ pub props, build_publish cache s tn msg = some (pub, props))
    (hqos : ∀ s ∈ R, min_qos cache.max_qos s.qos ≠ QoS.AtMostOnce) :
    (∀ s c pub pk, ∃ e,
      (share_leader_publish_message_qos1 (envs.q1 s) c pub pk).1
        = Except.error e)
    ∧ (recordLoop R cache tn envs msg off R cp 0 t).events.countP
        Ev.isCommit = 0
    ∧ (recordLoop R cache tn envs msg off R cp 0 t).events.countP
        Ev.isRemoveAck = 0
    ∧ (recordLoop R cache tn envs msg off R cp 0 t).events.countP
        Ev.isRemovePkid = 0 := by
  have h := recordLoop_allfail R cache tn envs msg off hR hq1 hq2 hbp hqos
    R cp 0 t rfl
  exact ⟨fun s c pub pk => qos1_fail_of_wait_none _ c pub pk (hq1 s),
    h.2.1, h.2.2.1, h.2.2.2.1⟩

/-- C5 witness: `C5_amended` on a concrete single-member group with a
silent PUBACK channel. -/
theorem C5_witness :
    (∀ s c pub pk, ∃ e,
      (share_leader_publish_message_qos1
        ((⟨fun _ => 1,
           fun _ => ⟨some 1, none, some MQTTProtocol.MQTT5, Except.ok (), none⟩,
           fun _ => ⟨Except.ok (), [], []⟩⟩ : AttemptEnvs).q1 s) c pub pk).1
        = Except.error e)
    ∧ (recordLoop [⟨"a", none, QoS.AtLeastOnce, false, false⟩]
        ⟨QoS.ExactlyOnce⟩ "tw"
        ⟨fun _ => 1,
         fun _ => ⟨some 1, none, some MQTTProtocol.MQTT5, Except.ok (), none⟩,
         fun _ => ⟨Except.ok (), [], []⟩⟩
        ⟨"m", false, "p", none, none, none, none, [], none, QoS.AtMostOnce⟩ 9
        [⟨"a", none, QoS.AtLeastOnce, false, false⟩] 0 0 0).events.countP
        Ev.isCommit = 0
    ∧ (recordLoop [⟨"a", none, QoS.AtLeastOnce, false, false⟩]
        ⟨QoS.ExactlyOnce⟩ "tw"
        ⟨fun _ => 1,
         fun _ => ⟨some 1, none, some MQTTProtocol.MQTT5, Except.ok (), none⟩,
         fun _ => ⟨Except.ok (), [], []⟩⟩
        ⟨"m", false, "p", none, none, none, none, [], none, QoS.AtMostOnce⟩ 9
        [⟨"a", none, QoS.AtLeastOnce, false, false⟩] 0 0 0).events.countP
        Ev.isRemoveAck = 0
    ∧ (recordLoop [⟨"a", none, QoS.AtLeastOnce, false, false⟩]
        ⟨QoS.ExactlyOnce⟩ "tw"
        ⟨fun _ => 1,
         fun _ => ⟨some 1, none, some MQTTProtocol.MQTT5, Except.ok (), none⟩,
         fun _ => ⟨Except.ok (), [], []⟩⟩
        ⟨"m", false, "p", none, none, none, none, [], none, QoS.AtMostOnce⟩ 9
        [⟨"a", none, QoS.AtLeastOnce, false, false⟩] 0 0 0).events.countP
        Ev.isRemovePkid = 0 :=
  C5_amended [⟨"a", none, QoS.AtLeastOnce, false, false⟩] ⟨QoS.ExactlyOnce⟩
    "tw"
    ⟨fun _ => 1,
     fun _ => ⟨some 1, none, some MQTTProtocol.MQTT5, Except.ok (), none⟩,
     fun _ => ⟨Except.ok (), [], []⟩⟩
    ⟨"m", false, "p", none, none, none, none, [], none, QoS.AtMostOnce⟩ 9 0 0
    (by decide) (fun _ => rfl) (fun _ => rfl)
    (by intro s hs; simp at hs; subst hs; exact ⟨_, _, rfl⟩)
    (by intro s hs; simp at hs; subst hs; decide)

/-! ### Claim C6: round-robin fairness of the shared-leader pump -/

/-- C6: with `k > 0` members, stable membership and no delivery errors,
the shared-leader pump dispatches a batch's records cyclically in member
list order, so over `n` delivered records each member's delivered count
lies between `⌊n/k⌋` and `⌊n/k⌋ + 1`. -/
theorem C6_roundrobin_fairness (R : List Subscriber) (cache : CacheInfo)
    (tn : String) (envs : AttemptEnvs) (records : List Record) (cp t i : Nat)
    (hR : R ≠ []) (hsucc : successEnvs envs)
    (hrec : ∀ r ∈ records, ∃ m, r.data = some m
      ∧ ∀ s ∈ R, ∃ pub props, build_publish cache s tn m = some (pub, props))
    (hi : i < R.length) :
    records.length / R.length
        ≤ (read_message_process R cache tn envs records R cp t).outcomes.countP
            (fun o => o == RecordOutcome.delivered i)
    ∧ (read_message_process R cache tn envs records R cp t).outcomes.countP
          (fun o => o == RecordOutcome.delivered i)
        ≤ records.length / R.length + 1 := by
  have hout := read_message_process_success R cache tn envs hR hsucc records
    hrec cp t
  rw [hout]
  have hk : 0 < R.length := List.length_pos.mpr hR
  have hs : (if cp < R.length then cp else 0) < R.length := by
    by_cases hc : cp < R.length
    · simpa [hc] using hc
    · simpa [hc] using hk
  exact delivered_count_bound R.length _ i records.length hk hs hi

/-- C6 witness: `C6_roundrobin_fairness` for two members and three
records — member 0 gets between 1 and 2 of them. -/
theorem C6_witness :
    (3 : Nat) / 2
        ≤ (read_message_process
            [⟨"a", none, QoS.AtMostOnce, false, false⟩,
             ⟨"b", none, QoS.AtLeastOnce, false, false⟩]
            ⟨QoS.ExactlyOnce⟩ "t"
            ⟨fun _ => 1,
             fun _ => ⟨some 1, none, some MQTTProtocol.MQTT5, Except.ok (),
               some ⟨QosAckPackageType.PubAck, 1⟩⟩,
             fun _ => ⟨Except.ok (), [some ⟨QosAckPackageType.PubRec, 1⟩], []⟩⟩
            [⟨1, some ⟨"m", false, "p", none, none, none, none, [], none,
                QoS.AtMostOnce⟩⟩,
             ⟨2, some ⟨"m", false, "p", none, none, none, none, [], none,
                QoS.AtMostOnce⟩⟩,
             ⟨3, some ⟨"m", false, "p", none, none, none, none, [], none,
                QoS.AtMostOnce⟩⟩]
            [⟨"a", none, QoS.AtMostOnce, false, false⟩,
             ⟨"b", none, QoS.AtLeastOnce, false, false⟩] 0 0).outcomes.countP
            (fun o => o == RecordOutcome.delivered 0)
    ∧ (read_message_process
            [⟨"a", none, QoS.AtMostOnce, false, false⟩,
             ⟨"b", none, QoS.AtLeastOnce, false, false⟩]
            ⟨QoS.ExactlyOnce⟩ "t"
            ⟨fun _ => 1,
             fun _ => ⟨some 1, none, some MQTTProtocol.MQTT5, Except.ok (),
               some ⟨QosAckPackageType.PubAck, 1⟩⟩,
             fun _ => ⟨Except.ok (), [some ⟨QosAckPackageType.PubRec, 1⟩], []⟩⟩
            [⟨1, some ⟨"m", false, "p", none, none, none, none, [], none,
                QoS.AtMostOnce⟩⟩,
             ⟨2, some ⟨"m", false, "p", none, none, none, none, [], none,
                QoS.AtMostOnce⟩⟩,
             ⟨3, some ⟨"m", false, "p", none, none, none, none, [], none,
                QoS.AtMostOnce⟩⟩]
            [⟨"a", none, QoS.AtMostOnce, false, false⟩,
             ⟨"b", none, QoS.AtLeastOnce, false, false⟩] 0 0).outcomes.countP
            (fun o => o == RecordOutcome.delivered 0)
        ≤ (3 : Nat) / 2 + 1 :=
  C6_roundrobin_fairness
    [⟨"a", none, QoS.AtMostOnce, false, false⟩,
     ⟨"b", none, QoS.AtLeastOnce, false, false⟩]
    ⟨QoS.ExactlyOnce⟩ "t"
    ⟨fun _ => 1,
     fun _ => ⟨some 1, none, some MQTTProtocol.MQTT5, Except.ok (),
       some ⟨QosAckPackageType.PubAck, 1⟩⟩,
     fun _ => ⟨Except.ok (), [some ⟨QosAckPackageType.PubRec, 1⟩], []⟩⟩
    [⟨1, some ⟨"m", false, "p", none, none, none, none, [], none,
        QoS.AtMostOnce⟩⟩,
     ⟨2, some ⟨"m", false, "p", none, none, none, none, [], none,
        QoS.AtMostOnce⟩⟩,
     ⟨3, some ⟨"m", false, "p", none, none, none, none, [], none,
        QoS.AtMostOnce⟩⟩] 0 0 0
    (by decide)
    ⟨fun _ => ⟨1, rfl⟩, fun _ => rfl, fun _ => rfl, fun _ => rfl,
      fun _ => rfl, fun _ => rfl⟩
    (by
      intro r hr
      simp only [List.mem_cons, List.not_mem_nil, or_false] at hr
      rcases hr with h | h | h <;> subst h <;>
        exact ⟨_, rfl, by
          intro s hs
          simp only [List.mem_cons, List.not_mem_nil, or_false] at hs
          rcases hs with h2 | h2 <;> subst h2 <;> exact ⟨_, _, rfl⟩⟩)
    (by decide)

/-! ### Claim C10: decode failure commits and aborts the batch -/

/-- C10: in the shared-leader pump, a record that fails to decode has its
offset committed and aborts the rest of the batch: the run's trace is the
prefix's trace plus that single commit, no further record is processed,
and the pump returns to the next storage read. -/
theorem C10_decode_failure (R : List Subscriber) (cache : CacheInfo)
    (tn : String) (envs : AttemptEnvs) (pre : List Record) (r : Record)
    (post : List Record) (sl : List Subscriber) (cp t : Nat)
    (hpre : (read_message_process R cache tn envs pre sl cp t).halted = none)
    (hr : r.data = none) :
    (read_message_process R cache tn envs (pre ++ r :: post) sl cp t).events
      = (read_message_process R cache tn envs pre sl cp t).events
          ++ [Ev.commit r.offset]
    ∧ (read_message_process R cache tn envs (pre ++ r :: post) sl cp t).outcomes
      = (read_message_process R cache tn envs pre sl cp t).outcomes
    ∧ (read_message_process R cache tn envs (pre ++ r :: post) sl cp t).halted
      = some HaltKind.decodeFail := by
  induction pre generalizing sl cp t with
  | nil =>
      simp only [List.nil_append]
      have hl : read_message_process R cache tn envs (r :: post) sl cp t
          = ⟨sl, cp, t, [], [Ev.commit r.offset], some HaltKind.decodeFail⟩ := by
        rw [read_message_process]
        simp only [hr]
      rw [hl]
      exact ⟨rfl, rfl, rfl⟩
  | cons rec rest ih =>
      rw [List.cons_append]
      cases hd : rec.data with
      | none =>
          rw [read_message_process] at hpre
          simp [hd] at hpre
      | some m =>
          simp only [read_message_process, hd] at hpre ⊢
          rcases ho : (recordLoop R cache tn envs m rec.offset sl cp 0 t).outcome
            with i | _ | _ | _
          case stalled =>
            simp only [ho] at hpre
            simp at hpre
          all_goals
            simp only [ho] at hpre ⊢
            obtain ⟨h1, h2, h3⟩ := ih _ _ _ hpre
            refine ⟨?_, ?_, ?_⟩
            · simp [h1]
            · simp [h2]
            · simp [h3]

/-- C10 witness: `C10_decode_failure` on a concrete batch: one good
record, then an undecodable one, then another good record that is never
processed. -/
theorem C10_witness :
    (read_message_process [⟨"a", none, QoS.ExactlyOnce, false, false⟩]
        ⟨QoS.AtMostOnce⟩ "t"
        ⟨fun _ => 1, fun _ => ⟨none, none, none, Except.ok (), none⟩,
         fun _ => ⟨Except.ok (), [], []⟩⟩
        ([⟨1, some ⟨"m", false, "p", none, none, none, none, [], none,
            QoS.AtMostOnce⟩⟩]
          ++ ⟨2, none⟩ :: [⟨3, some ⟨"m", false, "p", none, none, none, none,
            [], none, QoS.AtMostOnce⟩⟩])
        [⟨"a", none, QoS.ExactlyOnce, false, false⟩] 0 0).events
      = (read_message_process [⟨"a", none, QoS.ExactlyOnce, false, false⟩]
          ⟨QoS.AtMostOnce⟩ "t"
          ⟨fun _ => 1, fun _ => ⟨none, none, none, Except.ok (), none⟩,
           fun _ => ⟨Except.ok (), [], []⟩⟩
          [⟨1, some ⟨"m", false, "p", none, none, none, none, [], none,
            QoS.AtMostOnce⟩⟩]
          [⟨"a", none, QoS.ExactlyOnce, false, false⟩] 0 0).events
          ++ [Ev.commit 2]
    ∧ (read_message_process [⟨"a", none, QoS.ExactlyOnce, false, false⟩]
        ⟨QoS.AtMostOnce⟩ "t"
        ⟨fun _ => 1, fun _ => ⟨none, none, none, Except.ok (), none⟩,
         fun _ => ⟨Except.ok (), [], []⟩⟩
        ([⟨1, some ⟨"m", false, "p", none, none, none, none, [], none,
            QoS.AtMostOnce⟩⟩]
          ++ ⟨2, none⟩ :: [⟨3, some ⟨"m", false, "p", none, none, none, none,
            [], none, QoS.AtMostOnce⟩⟩])
        [⟨"a", none, QoS.ExactlyOnce, false, false⟩] 0 0).outcomes
      = (read_message_process [⟨"a", none, QoS.ExactlyOnce, false, false⟩]
          ⟨QoS.AtMostOnce⟩ "t"
          ⟨fun _ => 1, fun _ => ⟨none, none, none, Except.ok (), none⟩,
           fun _ => ⟨Except.ok (), [], []⟩⟩
          [⟨1, some ⟨"m", false, "p", none, none, none, none, [], none,
            QoS.AtMostOnce⟩⟩]
          [⟨"a", none, QoS.ExactlyOnce, false, false⟩] 0 0).outcomes
    ∧ (read_message_process [⟨"a", none, QoS.ExactlyOnce, false, false⟩]
        ⟨QoS.AtMostOnce⟩ "t"
        ⟨fun _ => 1, fun _ => ⟨none, none, none, Except.ok (), none⟩,
         fun _ => ⟨Except.ok (), [], []⟩⟩
        ([⟨1, some ⟨"m", false, "p", none, none, none, none, [], none,
            QoS.AtMostOnce⟩⟩]
          ++ ⟨2, none⟩ :: [⟨3, some ⟨"m", false, "p", none, none, none, none,
            [], none, QoS.AtMostOnce⟩⟩])
        [⟨"a", none, QoS.ExactlyOnce, false, false⟩] 0 0).halted
      = some HaltKind.decodeFail :=
  C10_decode_failure [⟨"a", none, QoS.ExactlyOnce, false, false⟩]
    ⟨QoS.AtMostOnce⟩ "t"
    ⟨fun _ => 1, fun _ => ⟨none, none, none, Except.ok (), none⟩,
     fun _ => ⟨Except.ok (), [], []⟩⟩
    [⟨1, some ⟨"m", false, "p", none, none, none, none, [], none,
      QoS.AtMostOnce⟩⟩]
    ⟨2, none⟩
    [⟨3, some ⟨"m", false, "p", none, none, none, none, [], none,
      QoS.AtMostOnce⟩⟩]
    [⟨"a", none, QoS.ExactlyOnce, false, false⟩] 0 0
    (by simp [read_message_process, recordLoop, build_publish, min_qos,
      QoS.toNat])
    rfl

end RobustMQ
